import Mathlib

/-!
Formal model of the reactor-incremental simulation core, translated from
`src/implementation/src/game/{grid,types,store,upgrades,simulation,save}.py`.

Modelling conventions:
* Python `float` is modelled as `ℝ` (the pipeline contains `math.log`,
  `math.cos` and float exponentiation, so the embedding is over the reals and
  mostly `noncomputable`); Python `int` is modelled as `ℤ`.
* Python exceptions (`IndexError` from raw list indexing / `Grid.index`) are
  modelled with `Except PyErr`.
* Cosmetic / rendering state (sprites, scrollbars, explosion animations,
  shop layout, view mode) is outside the model, as is anything that only the
  UI reads.
* In the Python code the grid cells and the component list alias the same
  `ReactorComponent` objects, and the aggregate maintains the invariant that
  the cell `(x,y,z)` is non-empty exactly when the component list holds one
  component with that recorded position.  The model therefore keeps the
  component list as the single source of truth and derives a cell read
  (`compsGet`) as the first component recorded at that position; an in-place
  mutation of a component becomes a position-targeted functional update
  (`updateComps`).  The standalone `Grid` data structure of `grid.py` (used
  by the grid-level claims) is modelled directly with its backing cell list.
-/

open scoped Classical

namespace RevReactor

/-- Error values raised by the modelled Python code. -/
inductive PyErr where
  | indexError : PyErr
deriving DecidableEq

/-- Python `int(x)` conversion of a float: truncation toward zero. -/
noncomputable def truncInt (x : ℝ) : ℤ :=
  if 0 ≤ x then ⌊x⌋ else ⌈x⌉

/-- Python `list[i]` read: non-negative indices from the front, negative
indices wrap from the back, anything else raises `IndexError`. -/
def pyListGet {α : Type} (l : List α) (i : ℤ) : Except PyErr α :=
  let j := if i < 0 then i + l.length else i
  if 0 ≤ j ∧ j < (l.length : ℤ) then
    match l.get? j.toNat with
    | some a => Except.ok a
    | none => Except.error PyErr.indexError
  else Except.error PyErr.indexError

/-- Python `list[i] = v` write, with the same index semantics as `pyListGet`. -/
def pyListSet {α : Type} (l : List α) (i : ℤ) (v : α) : Except PyErr (List α) :=
  let j := if i < 0 then i + l.length else i
  if 0 ≤ j ∧ j < (l.length : ℤ) then Except.ok (l.set j.toNat v)
  else Except.error PyErr.indexError

/-- Python `range(a, b+1)` as a list of integers (empty when `b < a`). -/
def rangeInt (a b : ℤ) : List ℤ :=
  (List.range (b - a + 1).toNat).map fun i => a + (i : ℤ)

/-! ## upgrades.py — Bonus / UpgradeType / UpgradeManager -/

/-- A single stat modifier within an upgrade (`upgrades.py`, class `Bonus`). -/
structure Bonus where
  component_type : ℤ
  stat_category : ℤ
  additive : ℝ := 0
  multiplicative : ℝ := 1

/-- One upgrade definition (`upgrades.py`, class `UpgradeType`).  Display-only
fields (`description`, `level_names`, `icon`, `category`) are omitted. -/
structure UpgradeType where
  index : ℤ := 0
  name : String := ""
  base_cost : ℝ := 0
  cost_multiplier : ℝ := 0
  purchasable : Bool := true
  is_prestige : Bool := false
  prerequisite : ℤ := -1
  bonuses : List Bonus := []
  level : ℤ := 0

/-- Upgrade state container (`upgrades.py`, class `UpgradeManager`). -/
structure UpgradeManager where
  upgrades : List UpgradeType := []

/- Stat category constants from the `StatCategory` IntEnum in `upgrades.py`. -/
namespace StatCat

def MAX_DURABILITY : ℤ := 1
def HEAT_CAPACITY : ℤ := 2
def ENERGY_PER_PULSE : ℤ := 3
def HEAT_PER_PULSE : ℤ := 4
def SELF_VENT_RATE : ℤ := 6
def REACTOR_VENT_RATE : ℤ := 8
def ADJACENT_TRANSFER_RATE : ℤ := 9
def REACTOR_TRANSFER_RATE : ℤ := 10
def REACTOR_HEAT_CAP_INCREASE : ℤ := 11
def REACTOR_POWER_CAP_INCREASE : ℤ := 12
def MANUAL_SELL : ℤ := 13
def MANUAL_VENT : ℤ := 14
def AUTO_SELL_RATE : ℤ := 15
def AUTO_VENT_RATE : ℤ := 16
def VENT_EFFECTIVENESS : ℤ := 17
def REPLACES_SELF : ℤ := 18
def TICKS_PER_SECOND : ℤ := 19
def CELL_EFFECTIVENESS : ℤ := 20
def VENT_CAPACITY : ℤ := 21
def EXCHANGER_EFFECTIVENESS : ℤ := 22
def EXCHANGER_CAPACITY : ℤ := 23
def REFLECTOR_EFFECTIVENESS : ℤ := 24
def COMPONENT_DISCOUNT : ℤ := 25
def UPGRADE_DISCOUNT : ℤ := 26

end StatCat

/-- `UpgradeManager.get_upgrade_stat_bonus`: for a `(component_type,
stat_category)` pair, accumulate `additive_sum` and
`multiplicative_product` over upgrades with non-zero level and return
`multiplicative_product * (additive_sum + 1.0)`. -/
noncomputable def UpgradeManager.get_upgrade_stat_bonus
    (m : UpgradeManager) (component_type stat_category : ℤ) : ℝ :=
  let acc := m.upgrades.foldl (fun (p : ℝ × ℝ) u =>
    if u.level = 0 then p
    else u.bonuses.foldl (fun (q : ℝ × ℝ) b =>
      if b.component_type = component_type ∧ b.stat_category = stat_category then
        (q.1 + b.additive * (u.level : ℝ), q.2 * b.multiplicative ^ u.level)
      else q) p) ((0 : ℝ), (1 : ℝ))
  acc.2 * (acc.1 + 1)

/-- `UpgradeManager.get_upgrade_discount`: `0.99 ^ (bonus - 1)` when the
upgrade-discount bonus exceeds 1, else 1. -/
noncomputable def UpgradeManager.get_upgrade_discount (m : UpgradeManager) : ℝ :=
  let bonus := m.get_upgrade_stat_bonus 1 StatCat.UPGRADE_DISCOUNT
  if bonus ≤ 1 then 1 else Real.rpow 0.99 (bonus - 1)

/-- `UpgradeManager.get_component_discount`. -/
noncomputable def UpgradeManager.get_component_discount (m : UpgradeManager) : ℝ :=
  let bonus := m.get_upgrade_stat_bonus 1 StatCat.COMPONENT_DISCOUNT
  if bonus ≤ 1 then 1 else Real.rpow 0.99 (bonus - 1)

/-- `UpgradeManager.get_cost` with the optional explicit level argument:
0 for an out-of-range index, `base_cost` for one-time upgrades
(`cost_multiplier == 0`), otherwise
`base_cost * cost_multiplier ^ level * discount`. -/
noncomputable def UpgradeManager.get_cost_at
    (m : UpgradeManager) (upgrade_idx : ℤ) (level? : Option ℤ) : ℝ :=
  if upgrade_idx < 0 ∨ (m.upgrades.length : ℤ) ≤ upgrade_idx then 0
  else
    match m.upgrades.get? upgrade_idx.toNat with
    | none => 0
    | some u =>
      let lvl := level?.getD u.level
      if u.cost_multiplier = 0 then u.base_cost
      else u.base_cost * u.cost_multiplier ^ lvl * m.get_upgrade_discount

/-- `UpgradeManager.get_cost` with the default `level=None`. -/
noncomputable def UpgradeManager.get_cost (m : UpgradeManager) (upgrade_idx : ℤ) : ℝ :=
  m.get_cost_at upgrade_idx none

/-- Final affordability comparison of `can_purchase`: prestige upgrades check
exotic particles, others check money. -/
noncomputable def UpgradeManager.canAfford (u : UpgradeType) (cost money ep : ℝ) : Bool :=
  if u.is_prestige = true then decide (cost ≤ ep) else decide (cost ≤ money)

/-- `UpgradeManager.can_purchase`.  The prerequisite access
`self.upgrades[u.prerequisite]` is raw list indexing and raises `IndexError`
when a non-negative prerequisite index is out of range. -/
noncomputable def UpgradeManager.can_purchase
    (m : UpgradeManager) (upgrade_idx : ℤ) (money ep : ℝ) : Except PyErr Bool :=
  if upgrade_idx < 0 ∨ (m.upgrades.length : ℤ) ≤ upgrade_idx then Except.ok false
  else
    match m.upgrades.get? upgrade_idx.toNat with
    | none => Except.error PyErr.indexError
    | some u =>
      if u.cost_multiplier = 0 ∧ 0 < u.level then Except.ok false
      else if 0 ≤ u.prerequisite then
        match pyListGet m.upgrades u.prerequisite with
        | Except.error e => Except.error e
        | Except.ok prereq =>
          if prereq.level = 0 then Except.ok false
          else Except.ok (UpgradeManager.canAfford u (m.get_cost upgrade_idx) money ep)
      else Except.ok (UpgradeManager.canAfford u (m.get_cost upgrade_idx) money ep)

/-- `UpgradeManager.purchase`: re-validate through `can_purchase`, then deduct
the cost from the matching currency and increment the level.  On validation
failure the `(money, ep)` pair and the upgrade list are returned unchanged. -/
noncomputable def UpgradeManager.purchase
    (m : UpgradeManager) (upgrade_idx : ℤ) (money ep : ℝ) :
    Except PyErr (UpgradeManager × ℝ × ℝ) :=
  match m.can_purchase upgrade_idx money ep with
  | Except.error e => Except.error e
  | Except.ok ok =>
    if ok = false then Except.ok (m, money, ep)
    else
      match m.upgrades.get? upgrade_idx.toNat with
      | none => Except.error PyErr.indexError
      | some u =>
        let cost := m.get_cost upgrade_idx
        let money' := if u.is_prestige = true then money else money - cost
        let ep' := if u.is_prestige = true then ep - cost else ep
        Except.ok (⟨m.upgrades.set upgrade_idx.toNat { u with level := u.level + 1 }⟩,
          money', ep')

/-- `UpgradeManager.has_replaces_self`: the Perpetual upgrade is owned for a
component type when the replaces-self bonus exceeds 1. -/
noncomputable def UpgradeManager.has_replaces_self (m : UpgradeManager) (component_type : ℤ) :
    Prop :=
  1 < m.get_upgrade_stat_bonus component_type StatCat.REPLACES_SELF

/-! ## grid.py — the dense 3-D cell array

Rendering and scroll state (`tile_size`, textures, viewport, scrollbars) is
presentation-only and omitted; the core fields are the dimensions and the
backing cell list created by `__post_init__` with length
`width * height * layers`. -/

/-- The grid data structure of `grid.py` (core fields). -/
structure Grid (α : Type) where
  width : ℤ
  height : ℤ
  layers : ℤ
  cells : List (Option α)

/-- `Grid.in_bounds`: `0 <= x < width and 0 <= y < height and 0 <= z < layers`. -/
def Grid.in_bounds {α : Type} (g : Grid α) (x y z : ℤ) : Bool :=
  decide (0 ≤ x ∧ x < g.width) && decide (0 ≤ y ∧ y < g.height) &&
    decide (0 ≤ z ∧ z < g.layers)

/-- `Grid.index`: flat index of a cell; raises `IndexError` when the
coordinate is out of bounds. -/
def Grid.index {α : Type} (g : Grid α) (x y z : ℤ) : Except PyErr ℤ :=
  if g.in_bounds x y z = false then Except.error PyErr.indexError
  else Except.ok ((z * g.height + y) * g.width + x)

/-- `Grid.get`: `None` for an out-of-bounds coordinate, otherwise the cell
content read through raw list indexing. -/
def Grid.get {α : Type} (g : Grid α) (x y z : ℤ) : Except PyErr (Option α) :=
  if g.in_bounds x y z = false then Except.ok none
  else
    match g.index x y z with
    | Except.error e => Except.error e
    | Except.ok i => pyListGet g.cells i

/-- `Grid.set`: writes through `Grid.index`, so an out-of-bounds coordinate
raises `IndexError` instead of returning a failure value. -/
def Grid.set {α : Type} (g : Grid α) (x y z : ℤ) (value : Option α) :
    Except PyErr (Grid α) :=
  match g.index x y z with
  | Except.error e => Except.error e
  | Except.ok i =>
    match pyListSet g.cells i value with
    | Except.error e => Except.error e
    | Except.ok cs => Except.ok { g with cells := cs }

/-- Cardinal neighbor coordinates of `(x, y, z)` inside a `w × h` layer, in
the order produced by `Grid.neighbors`: left, right, up, down. -/
def neighborCoords (w h x y z : ℤ) : List (ℤ × ℤ × ℤ) :=
  (if 0 < x then [(x - 1, y, z)] else []) ++
  (if x < w - 1 then [(x + 1, y, z)] else []) ++
  (if 0 < y then [(x, y - 1, z)] else []) ++
  (if y < h - 1 then [(x, y + 1, z)] else [])

/-- `Grid.neighbors`. -/
def Grid.neighbors {α : Type} (g : Grid α) (x y z : ℤ) : List (ℤ × ℤ × ℤ) :=
  neighborCoords g.width g.height x y z

/-- Coordinates within Manhattan distance `radius` of `(x, y)` (diamond
shape, excluding self), restricted to the `w × h` layer; mirrors
`Grid.manhattan_neighbors` including its iteration order (`dy` outer). -/
def manhattanCoords (w h x y z radius : ℤ) : List (ℤ × ℤ × ℤ) :=
  (rangeInt (-radius) radius).flatMap fun dy =>
    (rangeInt (-radius) radius).flatMap fun dx =>
      if dx = 0 ∧ dy = 0 then []
      else if radius < |dx| + |dy| then []
      else if 0 ≤ x + dx ∧ x + dx < w ∧ 0 ≤ y + dy ∧ y + dy < h then
        [(x + dx, y + dy, z)]
      else []

/-- `Grid.manhattan_neighbors`. -/
def Grid.manhattan_neighbors {α : Type} (g : Grid α) (x y z radius : ℤ) :
    List (ℤ × ℤ × ℤ) :=
  manhattanCoords g.width g.height x y z radius

/-! ## types.py / store.py — catalog entries and the resource store -/

/-- Immutable per-type constants (`types.py`, `ComponentTypeStats`).  Sprite
and shop-layout fields are presentation-only and omitted.  The `tier` field
is passed by the catalog loader (`catalog.py`) and, per the spec, weights the
global multiplier formulas; its declaration is missing from the shipped
`types.py`, so it is modelled here from the spec (section 2: a component's
upgrade rank). -/
structure ComponentTypeStats where
  name : String := ""
  energy_per_pulse : ℝ := 0
  heat_per_pulse : ℝ := 0
  pulses_produced : ℝ := 0
  max_durability : ℝ := 0
  heat_capacity : ℝ := 0
  cost : ℝ := 0
  self_vent_rate : ℝ := 0
  reactor_vent_rate : ℝ := 0
  neighbor_affects : Bool := false
  reactor_heat_capacity_increase : ℝ := 0
  reactor_power_capacity_increase : ℝ := 0
  reflects_pulses : ℝ := 0
  reflector_bonus_pct : ℝ := 0
  type_of_component : String := ""
  number_of_cores : ℤ := 1
  cell_width : ℤ := 1
  cell_height : ℤ := 1
  cant_lose_heat : Bool := false
  component_type_id : ℤ := 0
  required_upgrade : ℤ := -1
  tier : ℤ := 0

/-- A placed component instance (`simulation.py`, `ReactorComponent`),
before the `__post_init__` durability adjustment. -/
structure ReactorComponent where
  stats : ComponentTypeStats
  heat : ℝ := 0
  durability : ℝ := 0
  last_power : ℝ := 0
  last_heat : ℝ := 0
  depleted : Bool := false
  grid_x : ℤ := 0
  grid_y : ℤ := 0
  grid_z : ℤ := 0
  pulse_count : ℤ := 0

/-- `ReactorComponent.__post_init__`: a zero durability with a positive
`max_durability` is replaced by the full `max_durability`. -/
noncomputable def mkReactorComponent (c : ReactorComponent) : ReactorComponent :=
  if c.durability = 0 ∧ 0 < c.stats.max_durability then
    { c with durability := c.stats.max_durability }
  else c

/-- Scalar economy counters (`store.py`, `ResourceStore`). -/
structure ResourceStore where
  money : ℝ := 0
  total_money : ℝ := 0
  money_earned_this_game : ℝ := 0
  power : ℝ := 0
  total_power_produced : ℝ := 0
  power_produced_this_game : ℝ := 0
  heat : ℝ := 0
  total_heat_dissipated : ℝ := 0
  heat_dissipated_this_game : ℝ := 0
  exotic_particles : ℝ := 0
  total_exotic_particles : ℝ := 0
  last_power_change : ℝ := 0
  last_heat_change : ℝ := 0

/-- `ResourceStore.add_money`: non-positive amounts are ignored. -/
noncomputable def ResourceStore.add_money (st : ResourceStore) (amount : ℝ) : ResourceStore :=
  if amount ≤ 0 then st
  else { st with
    money := st.money + amount,
    total_money := st.total_money + amount,
    money_earned_this_game := st.money_earned_this_game + amount }

/-! ## simulation.py — the aggregate -/

/-- The simulation aggregate (`simulation.py`, `Simulation`).  The Python
object holds an `Optional[Grid]` whose cells alias entries of `components`;
here `hasGrid` models grid presence, `gridW`/`gridH`/`gridL` its dimensions,
and cell reads are derived from the component list (see the header comment).
View/hover/explosion-animation state is cosmetic and omitted. -/
structure Simulation where
  store : ResourceStore := {}
  components : List ReactorComponent := []
  hasGrid : Bool := true
  gridW : ℤ := 0
  gridH : ℤ := 0
  gridL : ℤ := 1
  shop_components : List ComponentTypeStats := []
  selected_component_index : ℤ := -1
  shop_page : ℤ := 0
  prestige_level : ℤ := 0
  upgrade_manager : UpgradeManager := {}
  reactor_heat : ℝ := 0
  stored_power : ℝ := 0
  last_heat_change : ℝ := 0
  last_power_change : ℝ := 0
  max_reactor_heat : ℝ := 1000
  max_reactor_power : ℝ := 100
  manual_vent_amount : ℝ := 1
  manual_sell_mult : ℝ := 1
  self_vent_mult : ℝ := 1
  heat_exchange_mult : ℝ := 1
  power_cap_mult : ℝ := 1
  heat_cap_mult : ℝ := 1
  paused : Bool := false
  replace_mode : Bool := true
  depleted_protium_count : ℤ := 0
  pulsesDirty : Bool := true
  ticks_per_second : ℝ := 1
  total_ticks : ℤ := 0

/-- Derived cell read: the component recorded at `(x, y, z)`, guarded by the
grid bounds exactly as `Grid.get` guards them.  Under the aggregate's
grid/list coherence invariant this is the content of the Python grid cell. -/
def compsGet (w h l : ℤ) (cs : List ReactorComponent) (x y z : ℤ) :
    Option ReactorComponent :=
  if 0 ≤ x ∧ x < w ∧ 0 ≤ y ∧ y < h ∧ 0 ≤ z ∧ z < l then
    cs.find? fun c =>
      decide (c.grid_x = x) && decide (c.grid_y = y) && decide (c.grid_z = z)
  else none

/-- Position-targeted functional update: the model of an in-place mutation of
the component object stored at `(x, y, z)`. -/
def updateComps (cs : List ReactorComponent) (x y z : ℤ)
    (f : ReactorComponent → ReactorComponent) : List ReactorComponent :=
  cs.map fun c =>
    if c.grid_x = x ∧ c.grid_y = y ∧ c.grid_z = z then f c else c

/-- The iteration order of `Grid.iter_cells`: `z` outer, then `y`, then `x`. -/
def rowMajor (w h l : ℤ) : List (ℤ × ℤ × ℤ) :=
  (List.range l.toNat).flatMap fun z =>
    (List.range h.toNat).flatMap fun y =>
      (List.range w.toNat).map fun (x : ℕ) => ((x : ℤ), (y : ℤ), (z : ℤ))

/-- `Grid.in_bounds` of the simulation's grid. -/
def Simulation.gridInBounds (s : Simulation) (x y z : ℤ) : Bool :=
  decide (0 ≤ x ∧ x < s.gridW) && decide (0 ≤ y ∧ y < s.gridH) &&
    decide (0 ≤ z ∧ z < s.gridL)

/-- `self.grid.get` as seen from the simulation (`none` when no grid). -/
def Simulation.gridGet (s : Simulation) (x y z : ℤ) : Option ReactorComponent :=
  if s.hasGrid = false then none
  else compsGet s.gridW s.gridH s.gridL s.components x y z

/-- `Simulation._stat_mult`: the upgrade multiplier for a
`(component_type_id, stat_category)` pair. -/
noncomputable def Simulation.stat_mult (s : Simulation) (type_id stat : ℤ) : ℝ :=
  s.upgrade_manager.get_upgrade_stat_bonus type_id stat

/-- Modelled from the spec: `Simulation.sum_component_tiers` is called by
`UpgradeManager.prepare_multipliers` but its definition is missing from the
shipped sources.  Per spec section 4.4 stage 1 the global multipliers are
derived "from upgrade bonuses weighted by the sum of placed components'
tiers within relevant categories", so this sums the `tier` of every placed
component whose category matches. -/
noncomputable def Simulation.sum_component_tiers (s : Simulation) (category : String) : ℝ :=
  s.components.foldl (fun acc c =>
    if c.stats.type_of_component = category then acc + (c.stats.tier : ℝ) else acc) 0

/-- `UpgradeManager.prepare_multipliers` (tick stage 1): derive the global
multipliers from upgrade bonuses and tier sums. -/
noncomputable def UpgradeManager.prepare_multipliers (m : UpgradeManager) (s : Simulation) :
    Simulation :=
  let capacitor_tier_sum := s.sum_component_tiers ("Capacitor")
  let plating_tier_sum := s.sum_component_tiers ("Plating")
  let vent_eff := m.get_upgrade_stat_bonus 13 StatCat.VENT_EFFECTIVENESS
  let exch_eff := m.get_upgrade_stat_bonus 13 StatCat.EXCHANGER_EFFECTIVENESS
  let pwr_cap := m.get_upgrade_stat_bonus 12 StatCat.VENT_CAPACITY
  let heat_cap := m.get_upgrade_stat_bonus 12 StatCat.EXCHANGER_CAPACITY
  { s with
    self_vent_mult := (vent_eff - 1) * capacitor_tier_sum * 0.01 + 1,
    heat_exchange_mult := (exch_eff - 1) * capacitor_tier_sum * 0.01 + 1,
    power_cap_mult := (pwr_cap - 1) * plating_tier_sum * 0.01 + 1,
    heat_cap_mult := (heat_cap - 1) * plating_tier_sum * 0.01 + 1,
    ticks_per_second := m.get_upgrade_stat_bonus 1 StatCat.TICKS_PER_SECOND,
    manual_vent_amount := m.get_upgrade_stat_bonus 1 StatCat.MANUAL_VENT,
    manual_sell_mult := m.get_upgrade_stat_bonus 1 StatCat.MANUAL_SELL }

/-- Loop body of `Simulation._distribute_pulses` for one grid cell: a
non-depleted fuel cell adds `scale * pulses` to itself and `pulses` to each
cardinal neighbor, except Stavrium (type id 20) which broadcasts `pulses` to
its whole row and column. -/
noncomputable def distStep (w h l : ℤ) (cs : List ReactorComponent) (x y z : ℤ) :
    List ReactorComponent :=
  match compsGet w h l cs x y z with
  | none => cs
  | some comp =>
    if comp.depleted = true then cs
    else if comp.stats.pulses_produced ≤ 0 then cs
    else
      let pulses := truncInt comp.stats.pulses_produced
      let scale : ℤ :=
        if 1 ≤ comp.stats.number_of_cores then
          (Nat.log2 comp.stats.number_of_cores.toNat : ℤ) + 1
        else 1
      let cs := updateComps cs x y z fun c =>
        { c with pulse_count := c.pulse_count + scale * pulses }
      if comp.stats.component_type_id = 20 then
        let cs := (rangeInt 0 (w - 1)).foldl (fun cs col =>
          if col ≠ x then
            match compsGet w h l cs col y z with
            | some _ => updateComps cs col y z fun c =>
                { c with pulse_count := c.pulse_count + pulses }
            | none => cs
          else cs) cs
        (rangeInt 0 (h - 1)).foldl (fun cs row =>
          if row ≠ y then
            match compsGet w h l cs x row z with
            | some _ => updateComps cs x row z fun c =>
                { c with pulse_count := c.pulse_count + pulses }
            | none => cs
          else cs) cs
      else
        (neighborCoords w h x y z).foldl (fun cs q =>
          match compsGet w h l cs q.1 q.2.1 q.2.2 with
          | some _ => updateComps cs q.1 q.2.1 q.2.2 fun c =>
              { c with pulse_count := c.pulse_count + pulses }
          | none => cs) cs

/-- `Simulation._distribute_pulses` (tick stage 2): zero all pulse counts,
then run the distribution body over every grid cell in iteration order. -/
noncomputable def Simulation.distribute_pulses (s : Simulation) : Simulation :=
  if s.hasGrid = false then s
  else
    let cs0 := s.components.map fun c => { c with pulse_count := 0 }
    let cs := (rowMajor s.gridW s.gridH s.gridL).foldl
      (fun cs q => distStep s.gridW s.gridH s.gridL cs q.1 q.2.1 q.2.2) cs0
    { s with components := cs }

/-- Accumulator for `Simulation._drain_durability`. -/
structure DrainAcc where
  comps : List ReactorComponent
  protium : ℤ
  dirty : Bool

/-- Loop body of `Simulation._drain_durability` for one grid cell: fuel cells
lose 1 durability per tick (Protium counts its depletion, the Perpetual
upgrade auto-replaces), reflectors lose the sum of their non-depleted
neighbors' pulses. -/
noncomputable def drainStep (w h l : ℤ) (um : UpgradeManager) (replaceMode : Bool)
    (a : DrainAcc) (x y z : ℤ) : DrainAcc :=
  match compsGet w h l a.comps x y z with
  | none => a
  | some comp =>
    if comp.depleted = true then a
    else
      let a :=
        if 0 < comp.stats.pulses_produced ∧ 0 < comp.stats.max_durability then
          let d := comp.durability - 1
          if d ≤ 0 then
            let protium :=
              if comp.stats.component_type_id = 16 then a.protium + 1 else a.protium
            if replaceMode = true ∧ um.has_replaces_self comp.stats.component_type_id then
              let dm := um.get_upgrade_stat_bonus comp.stats.component_type_id
                StatCat.MAX_DURABILITY
              { comps := updateComps a.comps x y z fun c =>
                  { c with durability := c.stats.max_durability * dm, heat := 0 },
                protium := protium, dirty := true }
            else
              { comps := updateComps a.comps x y z fun c =>
                  { c with durability := d, depleted := true },
                protium := protium, dirty := true }
          else
            { a with comps := updateComps a.comps x y z fun c => { c with durability := d } }
        else a
      match compsGet w h l a.comps x y z with
      | none => a
      | some comp2 =>
        if 0 < comp2.stats.reflects_pulses ∧ 0 < comp2.stats.max_durability then
          let nsum : ℤ := (neighborCoords w h x y z).foldl (fun acc q =>
            match compsGet w h l a.comps q.1 q.2.1 q.2.2 with
            | some n =>
              if n.depleted = false then acc + truncInt n.stats.pulses_produced else acc
            | none => acc) 0
          let d2 := comp2.durability - (nsum : ℝ)
          if d2 ≤ 0 then
            { a with comps := updateComps a.comps x y z fun c =>
                { c with durability := d2, depleted := true } }
          else
            { a with comps := updateComps a.comps x y z fun c => { c with durability := d2 } }
        else a

/-- `Simulation._drain_durability` (tick stage 3). -/
noncomputable def Simulation.drain_durability (s : Simulation) : Simulation :=
  if s.hasGrid = false then s
  else
    let a := (rowMajor s.gridW s.gridH s.gridL).foldl
      (fun a q => drainStep s.gridW s.gridH s.gridL s.upgrade_manager s.replace_mode
        a q.1 q.2.1 q.2.2)
      ⟨s.components, s.depleted_protium_count, s.pulsesDirty⟩
    { s with components := a.comps, depleted_protium_count := a.protium,
             pulsesDirty := a.dirty }

/-- Base heat produced by a fuel cell in one tick (`simulation.py` lines
417-419): `pulse_count² * hpp / max(1, cell_width * cell_height)` with the
upgrade-adjusted heat per pulse. -/
noncomputable def fuelHeat (um : UpgradeManager) (c : ReactorComponent) : ℝ :=
  let hpp := c.stats.heat_per_pulse *
    um.get_upgrade_stat_bonus c.stats.component_type_id StatCat.HEAT_PER_PULSE
  let cell_area := c.stats.cell_width * c.stats.cell_height
  ((c.pulse_count * c.pulse_count : ℤ) : ℝ) * hpp / ((max 1 cell_area : ℤ) : ℝ)

/-- Accumulator for `Simulation._generate_power_and_heat`. -/
structure GenAcc where
  comps : List ReactorComponent
  total_power : ℝ
  total_heat_to_reactor : ℝ

/-- Loop body of `Simulation._generate_power_and_heat` for one grid cell:
compute the cell's power (with Protium / Kymium / Monastium / reflector /
overheat adjustments) and heat, record them on the component, and send the
heat to the absorbing cardinal neighbors (split equally) or to the reactor
hull accumulator when no neighbor has positive heat capacity. -/
noncomputable def genStep (w h l : ℤ) (um : UpgradeManager) (protium : ℤ)
    (overheat_mult : ℝ) (a : GenAcc) (x y z : ℤ) : GenAcc :=
  match compsGet w h l a.comps x y z with
  | none => a
  | some comp =>
    if comp.depleted = true then a
    else if comp.stats.energy_per_pulse ≤ 0 then a
    else
      let tid := comp.stats.component_type_id
      let epp := comp.stats.energy_per_pulse *
        um.get_upgrade_stat_bonus tid StatCat.ENERGY_PER_PULSE
      let power0 := (comp.pulse_count : ℝ) * epp
      let power1 := if tid = 16 then power0 * ((protium : ℝ) / 100 + 1) else power0
      let heat0 := fuelHeat um comp
      let ph :=
        if tid = 18 then
          let max_dur := comp.stats.max_durability *
            um.get_upgrade_stat_bonus tid StatCat.MAX_DURABILITY
          if 0 < max_dur then
            let phase := comp.durability / max_dur * 8 * Real.pi
            (power1 * ((1 - Real.cos phase) / 2), heat0 * ((1 + Real.cos phase) / 2))
          else (power1, heat0)
        else (power1, heat0)
      let power2 := ph.1
      let heat1 := ph.2
      let power3 :=
        if tid = 17 then
          let occupied : ℤ := (rangeInt (-3) 3).foldl (fun acc dy =>
            (rangeInt (-3) 3).foldl (fun acc dx =>
              if 0 ≤ x + dx ∧ x + dx < w ∧ 0 ≤ y + dy ∧ y + dy < h then
                match compsGet w h l a.comps (x + dx) (y + dy) z with
                | some _ => acc + 1
                | none => acc
              else acc) acc) 0
          power2 * (1 - (occupied : ℝ) * 0.02)
        else power2
      let ns := neighborCoords w h x y z
      let reflector_mult := ns.foldl (fun (acc : ℝ) q =>
        match compsGet w h l a.comps q.1 q.2.1 q.2.2 with
        | none => acc
        | some n =>
          if 0 < n.stats.reflects_pulses ∧ n.depleted = false then
            acc + 0.1 * um.get_upgrade_stat_bonus n.stats.component_type_id
              StatCat.REFLECTOR_EFFECTIVENESS
          else acc) 1
      let absorber_count : ℤ := ns.foldl (fun acc q =>
        match compsGet w h l a.comps q.1 q.2.1 q.2.2 with
        | none => acc
        | some n => if 0 < n.stats.heat_capacity then acc + 1 else acc) 0
      let power := power3 * reflector_mult * overheat_mult
      let cs1 := updateComps a.comps x y z fun c =>
        { c with last_power := power, last_heat := heat1 }
      if 0 < absorber_count then
        let heat_per_absorber := heat1 / (absorber_count : ℝ)
        let cs2 := ns.foldl (fun cs q =>
          match compsGet w h l cs q.1 q.2.1 q.2.2 with
          | none => cs
          | some n =>
            if 0 < n.stats.heat_capacity then
              updateComps cs q.1 q.2.1 q.2.2 fun c => { c with heat := c.heat + heat_per_absorber }
            else cs) cs1
        { comps := cs2, total_power := a.total_power + power,
          total_heat_to_reactor := a.total_heat_to_reactor }
      else
        { comps := cs1, total_power := a.total_power + power,
          total_heat_to_reactor := a.total_heat_to_reactor + heat1 }

/-- `Simulation._generate_power_and_heat` (tick stage 4); returns the new
state and the `(total_power, total_heat_to_reactor)` pair. -/
noncomputable def Simulation.generate_power_and_heat (s : Simulation) :
    Simulation × ℝ × ℝ :=
  if s.hasGrid = false then (s, 0, 0)
  else
    let overheat_mult :=
      if 1000 < s.reactor_heat then
        let cell_eff := s.upgrade_manager.get_upgrade_stat_bonus 1 StatCat.CELL_EFFECTIVENESS
        Real.log s.reactor_heat / Real.log 1000 * (cell_eff - 1) * 0.01 + 1
      else 1
    let a := (rowMajor s.gridW s.gridH s.gridL).foldl
      (fun a q => genStep s.gridW s.gridH s.gridL s.upgrade_manager
        s.depleted_protium_count overheat_mult a q.1 q.2.1 q.2.2)
      ⟨s.components, 0, 0⟩
    ({ s with
        components := a.comps,
        stored_power := s.stored_power + a.total_power,
        reactor_heat := s.reactor_heat + a.total_heat_to_reactor,
        store := { s.store with
          total_power_produced := s.store.total_power_produced + a.total_power,
          power_produced_this_game := s.store.power_produced_this_game + a.total_power } },
      a.total_power, a.total_heat_to_reactor)

/-- `Simulation.get_effective_heat_capacity`. -/
noncomputable def Simulation.get_effective_heat_capacity (s : Simulation)
    (c : ReactorComponent) : ℝ :=
  c.stats.heat_capacity * s.stat_mult c.stats.component_type_id StatCat.HEAT_CAPACITY

/-- `Simulation.get_effective_max_durability`. -/
noncomputable def Simulation.get_effective_max_durability (s : Simulation)
    (c : ReactorComponent) : ℝ :=
  c.stats.max_durability * s.stat_mult c.stats.component_type_id StatCat.MAX_DURABILITY

/-- Loop body of `Simulation._heat_exchange` for one grid cell: a non-depleted
Exchanger balances heat with each eligible cardinal neighbor toward the pooled
equilibrium fill, clamped to its transfer rate; transfers of magnitude at most
0.001 are skipped. -/
noncomputable def exchStep (w h l : ℤ) (um : UpgradeManager) (heat_exchange_mult : ℝ)
    (cs : List ReactorComponent) (x y z : ℤ) : List ReactorComponent :=
  match compsGet w h l cs x y z with
  | none => cs
  | some comp =>
    if comp.depleted = true then cs
    else if comp.stats.type_of_component ≠ "Exchanger" then cs
    else if comp.stats.self_vent_rate ≤ 0 then cs
    else
      let rate := comp.stats.self_vent_rate *
        um.get_upgrade_stat_bonus comp.stats.component_type_id StatCat.ADJACENT_TRANSFER_RATE *
        heat_exchange_mult
      let comp_cap := comp.stats.heat_capacity *
        um.get_upgrade_stat_bonus comp.stats.component_type_id StatCat.HEAT_CAPACITY
      if comp_cap ≤ 0 then cs
      else
        (neighborCoords w h x y z).foldl (fun cs q =>
          match compsGet w h l cs x y z, compsGet w h l cs q.1 q.2.1 q.2.2 with
          | some c, some n =>
            if n.depleted = true then cs
            else if n.stats.cant_lose_heat = true then cs
            else
              let ncap := n.stats.heat_capacity *
                um.get_upgrade_stat_bonus n.stats.component_type_id StatCat.HEAT_CAPACITY
              if ncap ≤ 0 then cs
              else
                let total_heat := c.heat + n.heat
                let total_cap := comp_cap + ncap
                if total_cap ≤ 0 then cs
                else
                  let targetFill := max 0 (min 1 (total_heat / total_cap))
                  let target_neighbor := targetFill * ncap
                  let delta := target_neighbor - n.heat
                  let transfer := max (-rate) (min rate delta)
                  if 0.001 < |transfer| then
                    let cs := updateComps cs q.1 q.2.1 q.2.2 fun m =>
                      { m with heat := m.heat + transfer }
                    updateComps cs x y z fun m => { m with heat := m.heat - transfer }
                  else cs
          | _, _ => cs) cs

/-- `Simulation._heat_exchange` (tick stage 5). -/
noncomputable def Simulation.heat_exchange (s : Simulation) : Simulation :=
  if s.hasGrid = false then s
  else
    let cs := (rowMajor s.gridW s.gridH s.gridL).foldl
      (fun cs q => exchStep s.gridW s.gridH s.gridL s.upgrade_manager
        s.heat_exchange_mult cs q.1 q.2.1 q.2.2) s.components
    { s with components := cs }

/-- `Simulation._extreme_coolant_absorb` (tick stage 5b): each non-depleted
Coolant6 absorbs 10% of the heat of every non-isolated heat-capable component
within Manhattan radius 2 (layer 0). -/
noncomputable def Simulation.extreme_coolant_absorb (s : Simulation) : Simulation :=
  if s.hasGrid = false then s
  else
    let cs := (List.range s.components.length).foldl (fun cs i =>
      match cs.get? i with
      | none => cs
      | some comp =>
        if comp.stats.type_of_component ≠ "Coolant" ∨ comp.stats.name ≠ "Coolant6" then cs
        else if comp.depleted = true then cs
        else
          (manhattanCoords s.gridW s.gridH comp.grid_x comp.grid_y 0 2).foldl (fun cs q =>
            match compsGet s.gridW s.gridH s.gridL cs q.1 q.2.1 q.2.2 with
            | none => cs
            | some nc =>
              if nc.stats.heat_capacity ≤ 0 then cs
              else if nc.stats.cant_lose_heat = true then cs
              else
                let absorbed := nc.heat * 0.1
                let cs := updateComps cs q.1 q.2.1 q.2.2 fun m =>
                  { m with heat := m.heat - absorbed }
                updateComps cs comp.grid_x comp.grid_y comp.grid_z fun m =>
                  { m with heat := m.heat + absorbed }) cs) s.components
    { s with components := cs }

/-- `Simulation._vent_heat_to_air` (tick stage 7): vent-type components
dissipate their own stored heat; Exchangers, Inlets and Outlets are excluded.
Returns the new state and the total vented amount. -/
noncomputable def Simulation.vent_heat_to_air (s : Simulation) : Simulation × ℝ :=
  let step := fun (p : List ReactorComponent × ℝ) (i : ℕ) =>
    match p.1.get? i with
    | none => p
    | some comp =>
      if comp.stats.self_vent_rate ≤ 0 then p
      else if comp.stats.type_of_component = "Exchanger" ∨
          comp.stats.type_of_component = "Inlet" ∨
          comp.stats.type_of_component = "Outlet" then p
      else
        let vent_bonus := s.upgrade_manager.get_upgrade_stat_bonus
          comp.stats.component_type_id StatCat.SELF_VENT_RATE
        let rate := comp.stats.self_vent_rate * vent_bonus * s.self_vent_mult
        let vented := min comp.heat rate
        let heat1 := comp.heat - vented
        let heat2 := if heat1 < 0.01 then 0 else heat1
        (p.1.set i { comp with heat := heat2 }, p.2 + vented)
  let p := (List.range s.components.length).foldl step (s.components, 0)
  ({ s with
      components := p.1,
      store := { s.store with
        total_heat_dissipated := s.store.total_heat_dissipated + p.2,
        heat_dissipated_this_game := s.store.heat_dissipated_this_game + p.2 } }, p.2)

/-- Number of cardinal neighbors (layer 0) with positive heat capacity, as
counted by `Simulation._exchange_with_hull`. -/
noncomputable def absorberCountAt (w h l : ℤ) (cs : List ReactorComponent) (x y : ℤ) : ℤ :=
  (neighborCoords w h x y 0).foldl (fun acc q =>
    match compsGet w h l cs q.1 q.2.1 q.2.2 with
    | some n => if 0 < n.stats.heat_capacity then acc + 1 else acc
    | none => acc) 0

/-- `Simulation._exchange_with_hull` (tick stage 6): pass 1 totals the outlet
capacity for the distribution fraction; pass 2 lets Inlets pull neighbor heat
into the hull and Outlets push hull heat into absorbing neighbors. -/
noncomputable def Simulation.exchange_with_hull (s : Simulation) : Simulation :=
  if s.hasGrid = false then s
  else
    let um := s.upgrade_manager
    let total_outlet_capacity := s.components.foldl (fun (acc : ℝ) comp =>
      if comp.stats.reactor_vent_rate ≤ 0 ∨ comp.depleted = true then acc
      else if comp.stats.type_of_component ≠ "Outlet" then acc
      else
        let rate := comp.stats.reactor_vent_rate *
          um.get_upgrade_stat_bonus comp.stats.component_type_id StatCat.REACTOR_TRANSFER_RATE *
          s.heat_exchange_mult
        let ac := absorberCountAt s.gridW s.gridH s.gridL s.components comp.grid_x comp.grid_y
        if 0 < ac then acc + (ac : ℝ) * rate else acc) 0
    let distFrac :=
      if 0 < total_outlet_capacity then
        max 0 (min 1 (s.reactor_heat / total_outlet_capacity))
      else 0
    let step := fun (p : List ReactorComponent × ℝ) (i : ℕ) =>
      match p.1.get? i with
      | none => p
      | some comp =>
        if comp.stats.reactor_vent_rate ≤ 0 ∨ comp.depleted = true then p
        else
          let rate := comp.stats.reactor_vent_rate *
            um.get_upgrade_stat_bonus comp.stats.component_type_id StatCat.REACTOR_TRANSFER_RATE *
            s.heat_exchange_mult
          if comp.stats.type_of_component = "Inlet" then
            (neighborCoords s.gridW s.gridH comp.grid_x comp.grid_y 0).foldl (fun p q =>
              match compsGet s.gridW s.gridH s.gridL p.1 q.1 q.2.1 q.2.2 with
              | none => p
              | some nc =>
                if nc.stats.cant_lose_heat = true then p
                else
                  let transfer := min rate nc.heat
                  if 0 < transfer then
                    (updateComps p.1 q.1 q.2.1 q.2.2 fun m => { m with heat := m.heat - transfer },
                      p.2 + transfer)
                  else p) p
          else if comp.stats.type_of_component = "Outlet" then
            if total_outlet_capacity ≤ 0 then p
            else
              let ac := absorberCountAt s.gridW s.gridH s.gridL p.1 comp.grid_x comp.grid_y
              if ac = 0 then p
              else
                let transfer_total := min (distFrac * rate * (ac : ℝ)) p.2
                let transfer_per := transfer_total / (ac : ℝ)
                (neighborCoords s.gridW s.gridH comp.grid_x comp.grid_y 0).foldl (fun p q =>
                  match compsGet s.gridW s.gridH s.gridL p.1 q.1 q.2.1 q.2.2 with
                  | none => p
                  | some nc =>
                    if 0 < nc.stats.heat_capacity then
                      (updateComps p.1 q.1 q.2.1 q.2.2 fun m =>
                        { m with heat := m.heat + transfer_per },
                        p.2 - transfer_per)
                    else p) p
          else p
    let p := (List.range s.components.length).foldl step (s.components, s.reactor_heat)
    { s with components := p.1, reactor_heat := p.2 }

/-- `Simulation.recompute_max_capacities`. -/
noncomputable def Simulation.recompute_max_capacities (s : Simulation) : Simulation :=
  let um := s.upgrade_manager
  let base_heat := um.get_upgrade_stat_bonus 1 StatCat.REACTOR_HEAT_CAP_INCREASE * 1000
  let base_power := um.get_upgrade_stat_bonus 1 StatCat.REACTOR_POWER_CAP_INCREASE * 100
  let bp := s.components.foldl (fun (p : ℝ × ℝ) c =>
    (p.1 + c.stats.reactor_heat_capacity_increase *
        um.get_upgrade_stat_bonus c.stats.component_type_id StatCat.REACTOR_HEAT_CAP_INCREASE,
      p.2 + c.stats.reactor_power_capacity_increase *
        um.get_upgrade_stat_bonus c.stats.component_type_id StatCat.REACTOR_POWER_CAP_INCREASE))
    (base_heat, base_power)
  { s with max_reactor_heat := bp.1 * s.heat_cap_mult,
           max_reactor_power := bp.2 * s.power_cap_mult }

/-- `Simulation._check_explosions` (tick stage 8): distribute 5% of the hull
heat excess to non-depleted heat-capable components, collect the destruction
candidates (two-phase), destroy them (at `reactor_heat >= 2 * max` every
non-depleted component is destroyed), recompute capacities when anything was
destroyed, and clamp small heat residuals. -/
noncomputable def Simulation.check_explosions (s : Simulation) : Simulation :=
  if s.hasGrid = false then s
  else
    let max_heat := s.max_reactor_heat
    let is_meltdown := 0 < max_heat ∧ 2 * max_heat ≤ s.reactor_heat
    let cs0 :=
      if max_heat < s.reactor_heat ∧ 0 < max_heat then
        let overflow := s.reactor_heat - max_heat
        s.components.map fun c =>
          if 0 < c.stats.heat_capacity ∧ c.depleted = false then
            { c with heat := c.heat + overflow * 0.05 }
          else c
      else s.components
    let to_destroy := cs0.filter fun c =>
      if c.depleted = true then false
      else if 0 < c.stats.heat_capacity then
        decide (is_meltdown ∨
          c.stats.heat_capacity *
            s.upgrade_manager.get_upgrade_stat_bonus c.stats.component_type_id
              StatCat.HEAT_CAPACITY ≤ c.heat)
      else decide is_meltdown
    let cs1 := to_destroy.foldl (fun cs c => cs.erase c) cs0
    let s1 := { s with components := cs1 }
    let s2 :=
      if to_destroy ≠ [] then ({ s1 with pulsesDirty := true }).recompute_max_capacities
      else s1
    { s2 with components := s2.components.map fun c =>
        if c.heat < 0.01 then { c with heat := 0 } else c }

/-- `Simulation.auto_vent_rate_per_tick`. -/
noncomputable def Simulation.auto_vent_rate_per_tick (s : Simulation) : ℝ :=
  let auto_vent_bonus := s.upgrade_manager.get_upgrade_stat_bonus 1 StatCat.AUTO_VENT_RATE
  s.max_reactor_heat * (auto_vent_bonus - 1) * 0.01 + s.max_reactor_heat * 0.0001

/-- `Simulation.auto_sell_rate_per_tick`. -/
noncomputable def Simulation.auto_sell_rate_per_tick (s : Simulation) : ℝ :=
  let auto_sell_bonus := s.upgrade_manager.get_upgrade_stat_bonus 1 StatCat.AUTO_SELL_RATE
  (auto_sell_bonus - 1) * s.max_reactor_power * 0.01

/-- Tick stages 1-3 (`_do_tick` lines 187-203): reset the per-tick deltas,
bump the tick counter, prepare multipliers, recompute pulses when dirty, and
drain durability. -/
noncomputable def Simulation.tick_head (s : Simulation) : Simulation :=
  let s := { s with last_heat_change := 0, last_power_change := 0,
                    total_ticks := s.total_ticks + 1 }
  let s := s.upgrade_manager.prepare_multipliers s
  let s :=
    if s.pulsesDirty = true then { s.distribute_pulses with pulsesDirty := false } else s
  s.drain_durability

/-- Tick stages 4-7 (`_do_tick` lines 205-227): generation, heat exchange,
extreme-coolant absorption, hull exchange, component venting; returns the new
state together with the net heat accumulator
`heat_gen + component_vented - hull_exchange`. -/
noncomputable def Simulation.tick_middle (s : Simulation) : Simulation × ℝ :=
  let gen := s.generate_power_and_heat
  let s1 := { gen.1 with
    last_power_change := gen.1.last_power_change + gen.2.1,
    last_heat_change := gen.1.last_heat_change + gen.2.2 }
  let s2 := s1.heat_exchange
  let s3 := s2.extreme_coolant_absorb
  let s4 := s3.exchange_with_hull
  let hull_exchange := s4.reactor_heat - s3.reactor_heat
  let vh := s4.vent_heat_to_air
  (vh.1, gen.2.2 + vh.2 - hull_exchange)

/-- Auto-vent branch of `_do_tick` (lines 232-246): the hull vents at the
upgrade-derived rate, boosted to 5% of the excess while overheating with a
non-positive net heat accumulator. -/
noncomputable def Simulation.tick_auto_vent (s : Simulation) (net_heat_accumulator : ℝ) :
    Simulation :=
  let auto_vent0 := s.auto_vent_rate_per_tick
  let auto_vent :=
    if s.max_reactor_heat < s.reactor_heat ∧ net_heat_accumulator ≤ 0 then
      max auto_vent0 ((s.reactor_heat - s.max_reactor_heat) * 0.05)
    else auto_vent0
  if 0 < auto_vent ∧ 0 < s.reactor_heat then
    let vented := min s.reactor_heat auto_vent
    { s with reactor_heat := s.reactor_heat - vented,
             last_heat_change := s.last_heat_change - vented,
             store := { s.store with
               total_heat_dissipated := s.store.total_heat_dissipated + vented,
               heat_dissipated_this_game := s.store.heat_dissipated_this_game + vented } }
  else s

/-- Extreme-Capacitor heating inside the auto-sell branch of `_do_tick`
(lines 256-276): each non-depleted Capacitor6 gains heat proportional to the
fraction of the auto-sell rate actually sold, clamped to its effective heat
capacity. -/
noncomputable def Simulation.tick_capacitor_heat (s : Simulation)
    (auto_sell_mult sellFrac : ℝ) : Simulation :=
  { s with components := s.components.map fun comp =>
      if comp.stats.type_of_component = "Capacitor" ∧ comp.stats.name = "Capacitor6" ∧
          comp.depleted = false then
        let power_cap_inc := comp.stats.reactor_power_capacity_increase *
          s.stat_mult comp.stats.component_type_id StatCat.REACTOR_POWER_CAP_INCREASE
        let heat_added := auto_sell_mult * power_cap_inc * 0.005 * sellFrac
        let c := { comp with heat := comp.heat + heat_added }
        let eff_cap := s.get_effective_heat_capacity c
        if 0 < eff_cap ∧ eff_cap < c.heat then { c with heat := eff_cap } else c
      else comp }

/-- Auto-sell branch of `_do_tick` (lines 249-276). -/
noncomputable def Simulation.tick_auto_sell (s : Simulation) : Simulation :=
  let auto_sell := s.auto_sell_rate_per_tick
  if 0 < auto_sell ∧ 0 < s.stored_power then
    let sold := min s.stored_power auto_sell
    let s1 := { s with stored_power := s.stored_power - sold,
                       store := s.store.add_money sold }
    let auto_sell_mult :=
      s1.upgrade_manager.get_upgrade_stat_bonus 1 StatCat.AUTO_SELL_RATE - 1
    if 0 < auto_sell_mult then
      let sellFrac := if 0 < auto_sell then sold / auto_sell else 0
      s1.tick_capacitor_heat auto_sell_mult sellFrac
    else s1
  else s

/-- `Simulation._do_tick`: one full simulation tick following the decoded
pipeline (multipliers, pulses, durability, generation, heat exchange,
extreme-coolant absorption, hull exchange, venting, explosion check,
auto-vent, auto-sell, power clamp, store sync).  The appended explosion
animations are cosmetic and not modelled. -/
noncomputable def Simulation.do_tick (s : Simulation) : Simulation :=
  let mid := s.tick_head.tick_middle
  let s1 := mid.1.check_explosions
  let s2 := s1.tick_auto_vent mid.2
  let s3 := s2.tick_auto_sell
  let s4 := { s3 with stored_power := min s3.stored_power s3.max_reactor_power }
  { s4 with store := { s4.store with power := s4.stored_power, heat := s4.reactor_heat } }

/-! ## Public mutators of simulation.py used by the claims -/

/-- `Simulation.place_component`: fail on a missing grid, an out-of-bounds
coordinate or an occupied cell; otherwise record the position, set the
upgrade-adjusted initial durability, append to the component list, mark
pulses dirty and recompute capacities. -/
noncomputable def Simulation.place_component (s : Simulation) (x y : ℤ)
    (component : ReactorComponent) (z : ℤ) : Simulation × Bool :=
  if s.hasGrid = false ∨ s.gridInBounds x y z = false then (s, false)
  else
    match s.gridGet x y z with
    | some _ => (s, false)
    | none =>
      let c0 := { component with grid_x := x, grid_y := y, grid_z := z }
      let c :=
        if (0 : ℝ) < c0.stats.max_durability then
          { c0 with durability := c0.stats.max_durability *
              s.stat_mult c0.stats.component_type_id StatCat.MAX_DURABILITY }
        else c0
      (({ s with components := s.components ++ [c], pulsesDirty := true
          }).recompute_max_capacities, true)

/-- `Simulation.remove_component`: fail-closed on a missing grid, an
out-of-bounds coordinate or an empty cell; otherwise remove the component
from the grid and the list. -/
noncomputable def Simulation.remove_component (s : Simulation) (x y z : ℤ) :
    Simulation × Option ReactorComponent :=
  if s.hasGrid = false ∨ s.gridInBounds x y z = false then (s, none)
  else
    match s.gridGet x y z with
    | none => (s, none)
    | some existing =>
      (({ s with components := s.components.erase existing, pulsesDirty := true
          }).recompute_max_capacities, some existing)

/-- The level read from the Subspace Expansion upgrade (index 50) by
`resize_grid_for_subspace`: 0 when fewer than 51 upgrades are loaded. -/
noncomputable def subspaceLevel (m : UpgradeManager) : ℤ :=
  if m.upgrades ≠ [] ∧ 50 < m.upgrades.length then
    match m.upgrades.get? 50 with
    | some u => u.level
    | none => 0
  else 0

/-- `Simulation.resize_grid_for_subspace`: the grid grows by one column and
one row per level of the Subspace Expansion upgrade (index 50).  The Python
default arguments are `base_width=19`, `base_height=16`; the cell-preserving
`Grid.resize` is the identity on the derived representation. -/
noncomputable def Simulation.resize_grid_for_subspace (s : Simulation)
    (base_width base_height : ℤ) : Simulation :=
  if s.hasGrid = false then s
  else
    let level := subspaceLevel s.upgrade_manager
    let new_w := base_width + level
    let new_h := base_height + level
    if new_w ≠ s.gridW ∨ new_h ≠ s.gridH then
      { s with gridW := new_w, gridH := new_h, pulsesDirty := true }
    else s

/-- `Simulation.calculate_prestige_ep`:
`floor(4 ^ (log10(min(total_power, total_heat)) - 12))` minus the banked EP,
and 0 before `min(...)` reaches `1e12`. -/
noncomputable def Simulation.calculate_prestige_ep (s : Simulation) : ℤ :=
  let value := min s.store.total_power_produced s.store.total_heat_dissipated
  if value < 1e12 then 0
  else
    let total_ep := ⌊Real.rpow 4 (Real.logb 10 value - 12)⌋
    max 0 (total_ep - truncInt s.store.total_exotic_particles)

/-! ## save.py — snapshot build and restore -/

/-- One saved component record (`save.py`, `_build_save_dict`). -/
structure SavedComponent where
  name : String
  heat : ℝ
  durability : ℝ
  depleted : Bool
  x : ℤ
  y : ℤ
  z : ℤ

/-- The nine-plus-two scalar store fields of the snapshot. -/
structure SaveStore where
  money : ℝ := 0
  total_money : ℝ := 0
  money_earned_this_game : ℝ := 0
  power : ℝ := 0
  total_power_produced : ℝ := 0
  power_produced_this_game : ℝ := 0
  heat : ℝ := 0
  total_heat_dissipated : ℝ := 0
  heat_dissipated_this_game : ℝ := 0
  exotic_particles : ℝ := 0
  total_exotic_particles : ℝ := 0

/-- The versioned snapshot dictionary (`save.py`). -/
structure SaveData where
  version : ℤ := 1
  store : SaveStore := {}
  upgrade_levels : List ℤ := []
  reactor_heat : ℝ := 0
  stored_power : ℝ := 0
  depleted_protium_count : ℤ := 0
  paused : Bool := false
  replace_mode : Bool := true
  total_ticks : ℤ := 0
  prestige_level : ℤ := 0
  shop_page : ℤ := 0
  selected_component_index : ℤ := -1
  components : List SavedComponent := []

/-- `_build_save_dict`: serialize the simulation state. -/
noncomputable def build_save_dict (s : Simulation) : SaveData :=
  { version := 1,
    store := {
      money := s.store.money,
      total_money := s.store.total_money,
      money_earned_this_game := s.store.money_earned_this_game,
      power := s.store.power,
      total_power_produced := s.store.total_power_produced,
      power_produced_this_game := s.store.power_produced_this_game,
      heat := s.store.heat,
      total_heat_dissipated := s.store.total_heat_dissipated,
      heat_dissipated_this_game := s.store.heat_dissipated_this_game,
      exotic_particles := s.store.exotic_particles,
      total_exotic_particles := s.store.total_exotic_particles },
    upgrade_levels := s.upgrade_manager.upgrades.map fun u => u.level,
    reactor_heat := s.reactor_heat,
    stored_power := s.stored_power,
    depleted_protium_count := s.depleted_protium_count,
    paused := s.paused,
    replace_mode := s.replace_mode,
    total_ticks := s.total_ticks,
    prestige_level := s.prestige_level,
    shop_page := s.shop_page,
    selected_component_index := s.selected_component_index,
    components := s.components.map fun c =>
      { name := c.stats.name, heat := c.heat, durability := c.durability,
        depleted := c.depleted, x := c.grid_x, y := c.grid_y, z := c.grid_z } }

/-- The `stats_by_name` dict comprehension of `_restore_from_dict`:
for duplicate names the last catalog entry wins. -/
def statsByName (shop : List ComponentTypeStats) (n : String) : Option ComponentTypeStats :=
  (shop.filter fun c => decide (c.name = n)).getLast?

/-- Bounds check used by the restore loop, on the given grid dimensions. -/
def inBoundsDims (w h l x y z : ℤ) : Bool :=
  decide (0 ≤ x ∧ x < w) && decide (0 ≤ y ∧ y < h) && decide (0 ≤ z ∧ z < l)

/-- Component reconstruction loop of `_restore_from_dict` (parameterized by
the catalog and the grid presence/dimensions it reads from the simulation):
unknown names and out-of-bounds positions are skipped (with a logged
warning), everything else is rebuilt through the `ReactorComponent`
constructor (whose `__post_init__` re-fills a zero durability). -/
noncomputable def restoreComponents (shop : List ComponentTypeStats) (hasGrid : Bool)
    (w h l : ℤ) (data : List SavedComponent) : List ReactorComponent :=
  data.foldl (fun acc cd =>
    match statsByName shop cd.name with
    | none => acc
    | some stats =>
      let rc := mkReactorComponent
        { stats := stats, heat := cd.heat, durability := cd.durability,
          last_power := 0, last_heat := 0, depleted := cd.depleted,
          grid_x := cd.x, grid_y := cd.y, grid_z := cd.z, pulse_count := 0 }
      if hasGrid = true ∧ inBoundsDims w h l rc.grid_x rc.grid_y rc.grid_z = true then
        acc ++ [rc]
      else acc) []

/-- `_restore_from_dict`: restore store fields, upgrade levels, the
subspace-resized grid, simulation scalars and the component list, then mark
pulses dirty, recompute capacities and sync the display store.  With typed
snapshot data the Python exception path is unreachable, so the result flag is
always `true`. -/
noncomputable def restore_from_dict (s : Simulation) (data : SaveData) :
    Simulation × Bool :=
  let s := { s with store := { s.store with
    money := data.store.money,
    total_money := data.store.total_money,
    money_earned_this_game := data.store.money_earned_this_game,
    power := data.store.power,
    total_power_produced := data.store.total_power_produced,
    power_produced_this_game := data.store.power_produced_this_game,
    heat := data.store.heat,
    total_heat_dissipated := data.store.total_heat_dissipated,
    heat_dissipated_this_game := data.store.heat_dissipated_this_game,
    exotic_particles := data.store.exotic_particles,
    total_exotic_particles := data.store.total_exotic_particles } }
  let s := { s with upgrade_manager :=
    ⟨s.upgrade_manager.upgrades.enum.map fun (p : ℕ × UpgradeType) =>
      match data.upgrade_levels.get? p.1 with
      | some lv => { p.2 with level := lv }
      | none => p.2⟩ }
  let s := s.resize_grid_for_subspace 19 16
  let s := { s with
    reactor_heat := data.reactor_heat,
    stored_power := data.stored_power,
    depleted_protium_count := data.depleted_protium_count,
    paused := data.paused,
    replace_mode := data.replace_mode,
    total_ticks := data.total_ticks,
    prestige_level := data.prestige_level,
    shop_page := data.shop_page,
    selected_component_index := data.selected_component_index }
  let s := { s with components := [] }
  let s := { s with
    components := restoreComponents s.shop_components s.hasGrid s.gridW s.gridH s.gridL
      data.components,
    pulsesDirty := true }
  let s := s.recompute_max_capacities
  let s := { s with store := { s.store with power := s.stored_power, heat := s.reactor_heat } }
  (s, true)

/-! ## Shared fold lemmas -/

/-- A fold whose step fixes every accumulator is the identity. -/
theorem foldl_id_of_forall {α β : Type _} (f : β → α → β) :
    ∀ (l : List α), (∀ b a, a ∈ l → f b a = b) → ∀ b, l.foldl f b = b := by
  intro l
  induction l with
  | nil => intro _ b; rfl
  | cons a t ih =>
    intro h b
    rw [List.foldl_cons, h b a (by simp)]
    exact ih (fun b' a' ha' => h b' a' (by simp [ha'])) b

/-- An invariant preserved by every fold step holds of the fold result. -/
theorem foldl_invariant {α β : Type _} (f : β → α → β) (C : β → Prop) :
    ∀ (l : List α) (b : β), C b → (∀ b a, a ∈ l → C b → C (f b a)) → C (l.foldl f b) := by
  intro l
  induction l with
  | nil => intro b hb _; exact hb
  | cons a t ih =>
    intro b hb h
    rw [List.foldl_cons]
    exact ih (f b a) (h b a (by simp) hb) (fun b' a' ha' => h b' a' (by simp [ha']))

/-! ## C2 — identity law of the upgrade bonus algebra -/

/-- C2: when every upgrade in the manager has level 0,
`get_upgrade_stat_bonus` returns exactly 1 for every
(component type, stat category) pair. -/
theorem stat_bonus_identity (m : UpgradeManager) (component_type stat_category : ℤ)
    (h : ∀ u ∈ m.upgrades, u.level = 0) :
    m.get_upgrade_stat_bonus component_type stat_category = 1 := by
  unfold UpgradeManager.get_upgrade_stat_bonus
  rw [foldl_id_of_forall _ _ (fun b u hu => by rw [if_pos (h u hu)])]
  norm_num

/-- A concrete one-upgrade manager with nothing purchased. -/
noncomputable def umAllZero : UpgradeManager :=
  { upgrades :=
      [{ index := 0, name := "Expanded Cells", base_cost := 100,
         cost_multiplier := 2,
         bonuses := [{ component_type := 2, stat_category := 3, additive := 0.25 }] }] }

/-- Witness: the identity law evaluated on a concrete manager and pair. -/
theorem stat_bonus_identity_witness :
    (∀ u ∈ umAllZero.upgrades, u.level = 0) ∧
      umAllZero.get_upgrade_stat_bonus 2 3 = 1 := by
  have h : ∀ u ∈ umAllZero.upgrades, u.level = 0 := by
    intro u hu
    simp only [umAllZero, List.mem_singleton] at hu
    rw [hu]
  exact ⟨h, stat_bonus_identity umAllZero 2 3 h⟩

/-! ## C8 — grid coordinate reads fail closed -/

/-- C8: for every coordinate outside the grid bounds, `Grid.in_bounds`
returns false and `Grid.get` returns `ok none` — the read path never
raises. -/
theorem grid_get_fail_closed {α : Type} (g : Grid α) (x y z : ℤ)
    (h : ¬ (0 ≤ x ∧ x < g.width ∧ 0 ≤ y ∧ y < g.height ∧ 0 ≤ z ∧ z < g.layers)) :
    g.in_bounds x y z = false ∧ g.get x y z = Except.ok none := by
  have hb : g.in_bounds x y z = false := by
    unfold Grid.in_bounds
    by_contra hc
    rw [Bool.not_eq_false, Bool.and_eq_true, Bool.and_eq_true] at hc
    obtain ⟨⟨h1, h2⟩, h3⟩ := hc
    rw [decide_eq_true_eq] at h1 h2 h3
    exact h ⟨h1.1, h1.2, h2.1, h2.2, h3.1, h3.2⟩
  refine ⟨hb, ?_⟩
  unfold Grid.get
  rw [hb]
  simp

/-- A concrete 2 × 2 grid backing the C8 witness. -/
def gridC8 : Grid ℕ := ⟨2, 2, 1, [none, none, none, none]⟩

/-- Witness: the fail-closed read evaluated at the out-of-bounds coordinate
(5, 0, 0) of a concrete 2 × 2 grid. -/
theorem grid_get_fail_closed_witness :
    (¬ (0 ≤ (5 : ℤ) ∧ (5 : ℤ) < gridC8.width ∧ 0 ≤ (0 : ℤ) ∧ (0 : ℤ) < gridC8.height ∧
        0 ≤ (0 : ℤ) ∧ (0 : ℤ) < gridC8.layers)) ∧
    gridC8.in_bounds 5 0 0 = false ∧ gridC8.get 5 0 0 = Except.ok none := by
  have h : ¬ (0 ≤ (5 : ℤ) ∧ (5 : ℤ) < gridC8.width ∧ 0 ≤ (0 : ℤ) ∧
      (0 : ℤ) < gridC8.height ∧ 0 ≤ (0 : ℤ) ∧ (0 : ℤ) < gridC8.layers) := by
    simp only [gridC8]
    decide
  exact ⟨h, grid_get_fail_closed gridC8 5 0 0 h⟩

/-! ## C10 — the grid write path raises, the simulation mutators guard it -/

/-- C10: an out-of-bounds coordinate makes `Grid.index` (and through it
`Grid.set`) raise `IndexError`, while `Simulation.place_component` and
`Simulation.remove_component` check `in_bounds` first and return
`false` / `none` with the simulation state unchanged. -/
theorem grid_write_path {α : Type} (g : Grid α) (value : Option α)
    (s : Simulation) (c : ReactorComponent) (x y z : ℤ)
    (hg : ¬ (0 ≤ x ∧ x < g.width ∧ 0 ≤ y ∧ y < g.height ∧ 0 ≤ z ∧ z < g.layers))
    (hs : ¬ (0 ≤ x ∧ x < s.gridW ∧ 0 ≤ y ∧ y < s.gridH ∧ 0 ≤ z ∧ z < s.gridL)) :
    g.index x y z = Except.error PyErr.indexError ∧
    g.set x y z value = Except.error PyErr.indexError ∧
    s.place_component x y c z = (s, false) ∧
    s.remove_component x y z = (s, none) := by
  have hb : g.in_bounds x y z = false := (grid_get_fail_closed g x y z hg).1
  have hidx : g.index x y z = Except.error PyErr.indexError := by
    unfold Grid.index
    rw [hb]
    simp
  have hsb : s.gridInBounds x y z = false := by
    unfold Simulation.gridInBounds
    by_contra hc
    rw [Bool.not_eq_false, Bool.and_eq_true, Bool.and_eq_true] at hc
    obtain ⟨⟨h1, h2⟩, h3⟩ := hc
    rw [decide_eq_true_eq] at h1 h2 h3
    exact hs ⟨h1.1, h1.2, h2.1, h2.2, h3.1, h3.2⟩
  refine ⟨hidx, ?_, ?_, ?_⟩
  · unfold Grid.set
    rw [hidx]
  · unfold Simulation.place_component
    rw [if_pos (Or.inr hsb)]
  · unfold Simulation.remove_component
    rw [if_pos (Or.inr hsb)]

/-- A concrete simulation with a 2 × 2 grid for the C10 witness. -/
noncomputable def simC10 : Simulation :=
  { hasGrid := true, gridW := 2, gridH := 2, gridL := 1 }

/-- Witness: the write-path contrast evaluated at the out-of-bounds
coordinate (5, 0, 0) on a concrete grid and simulation. -/
theorem grid_write_path_witness :
    (¬ (0 ≤ (5 : ℤ) ∧ (5 : ℤ) < gridC8.width ∧ 0 ≤ (0 : ℤ) ∧ (0 : ℤ) < gridC8.height ∧
        0 ≤ (0 : ℤ) ∧ (0 : ℤ) < gridC8.layers)) ∧
    (¬ (0 ≤ (5 : ℤ) ∧ (5 : ℤ) < simC10.gridW ∧ 0 ≤ (0 : ℤ) ∧ (0 : ℤ) < simC10.gridH ∧
        0 ≤ (0 : ℤ) ∧ (0 : ℤ) < simC10.gridL)) ∧
    gridC8.index 5 0 0 = Except.error PyErr.indexError ∧
    gridC8.set 5 0 0 (some 7) = Except.error PyErr.indexError ∧
    simC10.place_component 5 0 { stats := {} } 0 = (simC10, false) ∧
    simC10.remove_component 5 0 0 = (simC10, none) := by
  have hg : ¬ (0 ≤ (5 : ℤ) ∧ (5 : ℤ) < gridC8.width ∧ 0 ≤ (0 : ℤ) ∧
      (0 : ℤ) < gridC8.height ∧ 0 ≤ (0 : ℤ) ∧ (0 : ℤ) < gridC8.layers) := by
    simp only [gridC8]
    decide
  have hs : ¬ (0 ≤ (5 : ℤ) ∧ (5 : ℤ) < simC10.gridW ∧ 0 ≤ (0 : ℤ) ∧
      (0 : ℤ) < simC10.gridH ∧ 0 ≤ (0 : ℤ) ∧ (0 : ℤ) < simC10.gridL) := by
    simp only [simC10]
    decide
  obtain ⟨h1, h2, h3, h4⟩ := grid_write_path gridC8 (some 7) simC10 { stats := {} } 5 0 0 hg hs
  exact ⟨hg, hs, h1, h2, h3, h4⟩

/-! ## C3 — atomicity of UpgradeManager.purchase -/

/-- In-range reads through the Python list semantics agree with `get?`. -/
theorem pyListGet_ok {α : Type} (l : List α) (i : ℤ) (a : α) (h0 : 0 ≤ i)
    (ha : l.get? i.toNat = some a) : pyListGet l i = Except.ok a := by
  have hlt : i.toNat < l.length := by
    by_contra hge
    rw [List.get?_eq_none.mpr (Nat.le_of_not_lt hge)] at ha
    exact Option.noConfusion ha
  have hlt2 : i < (l.length : ℤ) := by omega
  unfold pyListGet
  simp only [if_neg (not_lt.mpr h0), ha]
  rw [if_pos (⟨h0, hlt2⟩ : 0 ≤ i ∧ i < (l.length : ℤ))]

/-- C3: `purchase` is atomic.  Under managers whose prerequisite indices are
in range, `can_purchase` is total; when it reports failure, `purchase`
returns the manager, money and EP unchanged; when it reports success,
`purchase` increments exactly the purchased upgrade's level and deducts
exactly the computed cost from the matching currency. -/
theorem purchase_atomic (m : UpgradeManager) (upgrade_idx : ℤ) (money ep : ℝ)
    (hwf : ∀ u ∈ m.upgrades, 0 ≤ u.prerequisite →
      u.prerequisite < (m.upgrades.length : ℤ)) :
    (∃ ok, m.can_purchase upgrade_idx money ep = Except.ok ok) ∧
    (m.can_purchase upgrade_idx money ep = Except.ok false →
      m.purchase upgrade_idx money ep = Except.ok (m, money, ep)) ∧
    (m.can_purchase upgrade_idx money ep = Except.ok true →
      ∃ u, m.upgrades.get? upgrade_idx.toNat = some u ∧
        m.purchase upgrade_idx money ep = Except.ok
          (⟨m.upgrades.set upgrade_idx.toNat { u with level := u.level + 1 }⟩,
            (if u.is_prestige = true then money else money - m.get_cost upgrade_idx),
            (if u.is_prestige = true then ep - m.get_cost upgrade_idx else ep))) := by
  refine ⟨?_, ?_, ?_⟩
  · -- totality of the validation under in-range prerequisites
    unfold UpgradeManager.can_purchase
    by_cases hr : upgrade_idx < 0 ∨ (m.upgrades.length : ℤ) ≤ upgrade_idx
    · rw [if_pos hr]; exact ⟨false, rfl⟩
    · rw [if_neg hr]
      push_neg at hr
      have hlt : upgrade_idx.toNat < m.upgrades.length := by omega
      have hget := List.get?_eq_get hlt
      simp only [hget]
      by_cases h1 : (m.upgrades.get ⟨upgrade_idx.toNat, hlt⟩).cost_multiplier = 0 ∧
          0 < (m.upgrades.get ⟨upgrade_idx.toNat, hlt⟩).level
      · rw [if_pos h1]; exact ⟨false, rfl⟩
      · rw [if_neg h1]
        by_cases h2 : 0 ≤ (m.upgrades.get ⟨upgrade_idx.toNat, hlt⟩).prerequisite
        · rw [if_pos h2]
          have hmem : m.upgrades.get ⟨upgrade_idx.toNat, hlt⟩ ∈ m.upgrades :=
            List.get_mem _ _ _
          have hplt : (m.upgrades.get ⟨upgrade_idx.toNat, hlt⟩).prerequisite <
              (m.upgrades.length : ℤ) := hwf _ hmem h2
          have hpnat : (m.upgrades.get ⟨upgrade_idx.toNat, hlt⟩).prerequisite.toNat <
              m.upgrades.length := by omega
          have hpget := List.get?_eq_get hpnat
          rw [pyListGet_ok _ _ _ h2 hpget]
          by_cases h3 : (m.upgrades.get
              ⟨(m.upgrades.get ⟨upgrade_idx.toNat, hlt⟩).prerequisite.toNat, hpnat⟩).level = 0
          · refine ⟨false, ?_⟩
            show (if (m.upgrades.get ⟨(m.upgrades.get
                    ⟨upgrade_idx.toNat, hlt⟩).prerequisite.toNat, hpnat⟩).level = 0 then
                  Except.ok false
                else Except.ok (UpgradeManager.canAfford (m.upgrades.get ⟨upgrade_idx.toNat, hlt⟩)
                  (m.get_cost upgrade_idx) money ep)) = Except.ok false
            rw [if_pos h3]
          · refine ⟨UpgradeManager.canAfford (m.upgrades.get ⟨upgrade_idx.toNat, hlt⟩)
              (m.get_cost upgrade_idx) money ep, ?_⟩
            show (if (m.upgrades.get ⟨(m.upgrades.get
                    ⟨upgrade_idx.toNat, hlt⟩).prerequisite.toNat, hpnat⟩).level = 0 then
                  Except.ok false
                else Except.ok (UpgradeManager.canAfford (m.upgrades.get ⟨upgrade_idx.toNat, hlt⟩)
                  (m.get_cost upgrade_idx) money ep)) = _
            rw [if_neg h3]
        · rw [if_neg h2]; exact ⟨_, rfl⟩
  · -- failed validation leaves everything unchanged
    intro h
    unfold UpgradeManager.purchase
    rw [h]
    rfl
  · -- successful validation: exact level bump and currency deduction
    intro h
    have hr : ¬ (upgrade_idx < 0 ∨ (m.upgrades.length : ℤ) ≤ upgrade_idx) := by
      intro hr
      unfold UpgradeManager.can_purchase at h
      rw [if_pos hr] at h
      exact Bool.noConfusion (Except.ok.inj h)
    push_neg at hr
    have hlt : upgrade_idx.toNat < m.upgrades.length := by omega
    have hget := List.get?_eq_get hlt
    refine ⟨_, hget, ?_⟩
    unfold UpgradeManager.purchase
    rw [h]
    simp only [hget]
    rfl

/-- A concrete manager for the C3 witness: one non-prestige upgrade costing
10, with nothing purchased. -/
noncomputable def umC3 : UpgradeManager :=
  { upgrades :=
      [{ index := 0, name := "Improved Chronometers", base_cost := 10,
         cost_multiplier := 2 }] }

/-- Witness: an unaffordable purchase on a concrete manager is validated as a
failure and leaves manager, money and EP unchanged. -/
theorem purchase_atomic_witness :
    (∀ u ∈ umC3.upgrades, 0 ≤ u.prerequisite →
      u.prerequisite < (umC3.upgrades.length : ℤ)) ∧
    umC3.can_purchase 0 5 0 = Except.ok false ∧
    umC3.purchase 0 5 0 = Except.ok (umC3, 5, 0) := by
  have hwf : ∀ u ∈ umC3.upgrades, 0 ≤ u.prerequisite →
      u.prerequisite < (umC3.upgrades.length : ℤ) := by
    intro u hu hp
    simp only [umC3, List.mem_singleton] at hu
    rw [hu] at hp
    norm_num at hp
  have hcan : umC3.can_purchase 0 5 0 = Except.ok false := by
    unfold UpgradeManager.can_purchase
    norm_num [umC3, UpgradeManager.canAfford, UpgradeManager.get_cost,
      UpgradeManager.get_cost_at, UpgradeManager.get_upgrade_discount,
      UpgradeManager.get_upgrade_stat_bonus]
  exact ⟨hwf, hcan, (purchase_atomic umC3 0 5 0 hwf).2.1 hcan⟩

/-! ## C9 — one-time upgrades never exceed level 1 -/

/-- One step of a purchase sequence: apply `purchase` with the step's index
and currency amounts, keeping only the resulting manager; an earlier
exception is propagated. -/
noncomputable def purchaseStep (acc : Except PyErr UpgradeManager) (op : ℤ × ℝ × ℝ) :
    Except PyErr UpgradeManager :=
  match acc with
  | Except.error e => Except.error e
  | Except.ok m' =>
    match m'.purchase op.1 op.2.1 op.2.2 with
    | Except.error e => Except.error e
    | Except.ok r => Except.ok r.1

/-- A sequence of `purchase` calls threaded through the manager; an exception
aborts the remaining sequence.  This is the quantification device for the
invariant "no sequence of purchase operations ever raises a one-time upgrade
above level 1". -/
noncomputable def purchaseRun (m : UpgradeManager) (ops : List (ℤ × ℝ × ℝ)) :
    Except PyErr UpgradeManager :=
  ops.foldl purchaseStep (Except.ok m)

/-- The invariant tracked along a purchase sequence: index `i` holds a
one-time upgrade with level at most 1 and unchanged base cost. -/
def OneTimeAt (i : ℕ) (B : ℝ) (m : UpgradeManager) : Prop :=
  ∃ u, m.upgrades.get? i = some u ∧ u.cost_multiplier = 0 ∧ u.level ≤ 1 ∧
    u.base_cost = B

/-- A single `purchase` preserves the one-time invariant at every index. -/
theorem purchase_preserves_one_time (m : UpgradeManager) (idx : ℤ) (money ep : ℝ)
    (r : UpgradeManager × ℝ × ℝ) (i : ℕ) (B : ℝ)
    (hp : m.purchase idx money ep = Except.ok r)
    (h : OneTimeAt i B m) : OneTimeAt i B r.1 := by
  unfold UpgradeManager.purchase at hp
  cases hcan : m.can_purchase idx money ep with
  | error e => rw [hcan] at hp; exact Except.noConfusion hp
  | ok ok =>
    rw [hcan] at hp
    by_cases hok : ok = false
    · subst hok
      simp only [if_pos rfl] at hp
      obtain rfl : (m, money, ep) = r := Except.ok.inj hp
      exact h
    · have hok' : ok = true := by
        cases ok
        · exact absurd rfl hok
        · rfl
      subst hok'
      simp only [Bool.true_eq_false, if_false] at hp
      cases hget : m.upgrades.get? idx.toNat with
      | none => rw [hget] at hp; exact Except.noConfusion hp
      | some u =>
        rw [hget] at hp
        simp only [Except.ok.injEq] at hp
        subst hp
        obtain ⟨u0, hu0, hmu, hlv, hbc⟩ := h
        have hglen : idx.toNat < m.upgrades.length := by
          by_contra hge
          rw [List.get?_eq_none.mpr (Nat.le_of_not_lt hge)] at hget
          exact Option.noConfusion hget
        by_cases hi : idx.toNat = i
        · subst hi
          have huu : u = u0 := by
            rw [hget] at hu0
            exact Option.some.inj hu0
          subst huu
          -- success of the validation rules out an already-owned one-time upgrade
          have hnot : ¬ (u.cost_multiplier = 0 ∧ 0 < u.level) := by
            intro hcon
            unfold UpgradeManager.can_purchase at hcan
            by_cases hr : idx < 0 ∨ (m.upgrades.length : ℤ) ≤ idx
            · rw [if_pos hr] at hcan
              exact Bool.noConfusion (Except.ok.inj hcan)
            · rw [if_neg hr] at hcan
              rw [hget] at hcan
              simp only [if_pos hcon] at hcan
              exact Bool.noConfusion (Except.ok.inj hcan)
          have hlv0 : u.level ≤ 0 := by
            by_contra hpos
            exact hnot ⟨hmu, by omega⟩
          refine ⟨{ u with level := u.level + 1 }, ?_, hmu,
            (by show u.level + 1 ≤ 1; omega), hbc⟩
          show (m.upgrades.set idx.toNat { u with level := u.level + 1 }).get? idx.toNat =
            some { u with level := u.level + 1 }
          exact List.get?_set_eq_of_lt _ hglen
        · refine ⟨u0, ?_, hmu, hlv, hbc⟩
          show (m.upgrades.set idx.toNat { u with level := u.level + 1 }).get? i = some u0
          rw [List.get?_set_ne _ _ hi]
          exact hu0

/-- An errored sequence stays errored. -/
theorem purchaseRun_error (ops : List (ℤ × ℝ × ℝ)) (e : PyErr) :
    ops.foldl purchaseStep (Except.error e) = Except.error e := by
  apply foldl_invariant purchaseStep (fun b => b = Except.error e) ops _ rfl
  intro b a _ hb
  rw [hb]
  rfl

/-- The one-time invariant holds after any successful purchase sequence. -/
theorem purchaseRun_preserves_one_time (i : ℕ) (B : ℝ) :
    ∀ (ops : List (ℤ × ℝ × ℝ)) (m : UpgradeManager), OneTimeAt i B m →
      ∀ m', purchaseRun m ops = Except.ok m' → OneTimeAt i B m' := by
  intro ops
  induction ops with
  | nil =>
    intro m hm m' hrun
    obtain rfl : m = m' := Except.ok.inj hrun
    exact hm
  | cons op t ih =>
    intro m hm m' hrun
    unfold purchaseRun at hrun
    rw [List.foldl_cons] at hrun
    have hstep : purchaseStep (Except.ok m) op =
        match m.purchase op.1 op.2.1 op.2.2 with
        | Except.error e => Except.error e
        | Except.ok r => Except.ok r.1 := rfl
    cases hp : m.purchase op.1 op.2.1 op.2.2 with
    | error e =>
      rw [hstep] at hrun
      simp only [hp] at hrun
      rw [purchaseRun_error] at hrun
      exact Except.noConfusion hrun
    | ok r =>
      rw [hstep] at hrun
      simp only [hp] at hrun
      exact ih r.1 (purchase_preserves_one_time m op.1 op.2.1 op.2.2 r i B hp hm) m' hrun

/-- C9: a one-time upgrade (`cost_multiplier == 0`) starting at level 0 never
exceeds level 1 under any sequence of purchases, stays one-time, and its cost
is always exactly `base_cost`. -/
theorem one_time_upgrade_invariant (m : UpgradeManager) (i : ℕ) (u : UpgradeType)
    (ops : List (ℤ × ℝ × ℝ)) (m' : UpgradeManager)
    (hu : m.upgrades.get? i = some u)
    (hmult : u.cost_multiplier = 0)
    (hlv : u.level = 0)
    (hrun : purchaseRun m ops = Except.ok m') :
    ∃ u', m'.upgrades.get? i = some u' ∧ u'.level ≤ 1 ∧ u'.cost_multiplier = 0 ∧
      m'.get_cost (i : ℤ) = u.base_cost := by
  have h0 : OneTimeAt i u.base_cost m := ⟨u, hu, hmult, by omega, rfl⟩
  obtain ⟨u', hu', hmu', hlv', hbc'⟩ :=
    purchaseRun_preserves_one_time i u.base_cost ops m h0 m' hrun
  refine ⟨u', hu', hlv', hmu', ?_⟩
  have hlen : i < m'.upgrades.length := by
    by_contra hge
    rw [List.get?_eq_none.mpr (Nat.le_of_not_lt hge)] at hu'
    exact Option.noConfusion hu'
  unfold UpgradeManager.get_cost UpgradeManager.get_cost_at
  rw [if_neg (by push_neg; omega)]
  have : (i : ℤ).toNat = i := Int.toNat_natCast i
  rw [this, hu']
  simp only [if_pos hmu']
  rw [hbc']

/-- The one-time upgrade of the C9 witness. -/
noncomputable def uC9 : UpgradeType :=
  { index := 0, name := "Heat-Resistant Alloys", base_cost := 5, cost_multiplier := 0 }

/-- The C9 witness manager holding only the one-time upgrade. -/
noncomputable def umC9 : UpgradeManager := { upgrades := [uC9] }

/-- Purchasing the one-time upgrade once succeeds and raises it to level 1. -/
theorem umC9_first_purchase :
    umC9.purchase 0 10 0 =
      Except.ok (⟨[{ uC9 with level := 1 }]⟩, 5, 0) := by
  have hcan : umC9.can_purchase 0 10 0 = Except.ok true := by
    unfold UpgradeManager.can_purchase
    norm_num [umC9, uC9, UpgradeManager.canAfford, UpgradeManager.get_cost,
      UpgradeManager.get_cost_at, List.get?]
  unfold UpgradeManager.purchase
  rw [hcan]
  norm_num [umC9, uC9, UpgradeManager.get_cost, UpgradeManager.get_cost_at, List.get?]

/-- Purchasing it a second time is rejected by validation. -/
theorem umC9_second_purchase :
    (⟨[{ uC9 with level := 1 }]⟩ : UpgradeManager).purchase 0 10 0 =
      Except.ok (⟨[{ uC9 with level := 1 }]⟩, 10, 0) := by
  have hcan : (⟨[{ uC9 with level := 1 }]⟩ : UpgradeManager).can_purchase 0 10 0 =
      Except.ok false := by
    unfold UpgradeManager.can_purchase
    norm_num [uC9, List.get?]
  unfold UpgradeManager.purchase
  rw [hcan]
  rfl

/-- Witness: two consecutive purchase attempts on a concrete one-time upgrade
leave it at level 1 with its fixed base cost. -/
theorem one_time_upgrade_invariant_witness :
    umC9.upgrades.get? 0 = some uC9 ∧ uC9.cost_multiplier = 0 ∧ uC9.level = 0 ∧
    purchaseRun umC9 [(0, 10, 0), (0, 10, 0)] =
      Except.ok (⟨[{ uC9 with level := 1 }]⟩ : UpgradeManager) ∧
    (∃ u', (⟨[{ uC9 with level := 1 }]⟩ : UpgradeManager).upgrades.get? 0 = some u' ∧
      u'.level ≤ 1 ∧ u'.cost_multiplier = 0 ∧
      (⟨[{ uC9 with level := 1 }]⟩ : UpgradeManager).get_cost (0 : ℕ) = uC9.base_cost) := by
  have hrun : purchaseRun umC9 [(0, 10, 0), (0, 10, 0)] =
      Except.ok (⟨[{ uC9 with level := 1 }]⟩ : UpgradeManager) := by
    unfold purchaseRun
    rw [List.foldl_cons, List.foldl_cons, List.foldl_nil]
    have h1 : purchaseStep (Except.ok umC9) (0, 10, 0) =
        Except.ok (⟨[{ uC9 with level := 1 }]⟩ : UpgradeManager) := by
      show (match umC9.purchase 0 10 0 with
        | Except.error e => Except.error e
        | Except.ok r => Except.ok r.1) = _
      rw [umC9_first_purchase]
    rw [h1]
    show (match (⟨[{ uC9 with level := 1 }]⟩ : UpgradeManager).purchase 0 10 0 with
      | Except.error e => Except.error e
      | Except.ok r => Except.ok r.1) = _
    rw [umC9_second_purchase]
  refine ⟨by simp [umC9, List.get?], rfl, rfl, hrun, ?_⟩
  exact one_time_upgrade_invariant umC9 0 uC9 [(0, 10, 0), (0, 10, 0)] _
    (by simp [umC9, List.get?]) rfl rfl hrun

/-! ## C5 — prestige boundary -/

/-- C5: with zero banked exotic particles, `calculate_prestige_ep` returns 1
when `min(total_power_produced, total_heat_dissipated)` is exactly `1e12`,
and 0 for every value strictly below `1e12`. -/
theorem prestige_ep_boundary (s : Simulation)
    (hep : s.store.total_exotic_particles = 0) :
    (min s.store.total_power_produced s.store.total_heat_dissipated = 1e12 →
      s.calculate_prestige_ep = 1) ∧
    (min s.store.total_power_produced s.store.total_heat_dissipated < 1e12 →
      s.calculate_prestige_ep = 0) := by
  constructor
  · intro hv
    unfold Simulation.calculate_prestige_ep
    rw [hv, if_neg (lt_irrefl _), hep]
    have h12 : (1e12 : ℝ) = (10 : ℝ) ^ (12 : ℕ) := by norm_num
    have hlogb : Real.logb 10 (1e12 : ℝ) = 12 := by
      rw [h12, Real.logb_pow, Real.logb_self_eq_one (by norm_num)]
      norm_num
    rw [hlogb]
    have hrp : Real.rpow 4 ((12 : ℝ) - 12) = 1 := by
      norm_num [Real.rpow_zero]
    rw [hrp]
    have hfl : ⌊(1 : ℝ)⌋ = 1 := Int.floor_one
    rw [hfl]
    unfold truncInt
    rw [if_pos le_rfl]
    norm_num
  · intro hv
    unfold Simulation.calculate_prestige_ep
    rw [if_pos hv]

/-- A concrete simulation whose lifetime power and dissipated heat are both
exactly 1e12, with nothing banked. -/
noncomputable def simC5 : Simulation :=
  { store := { total_power_produced := 1e12, total_heat_dissipated := 1e12 } }

/-- A concrete simulation strictly below the prestige threshold. -/
noncomputable def simC5' : Simulation :=
  { store := { total_power_produced := 999, total_heat_dissipated := 5e11 } }

/-- Witness: the prestige boundary evaluated at two concrete stores. -/
theorem prestige_ep_boundary_witness :
    simC5.store.total_exotic_particles = 0 ∧
    min simC5.store.total_power_produced simC5.store.total_heat_dissipated = 1e12 ∧
    simC5.calculate_prestige_ep = 1 ∧
    simC5'.store.total_exotic_particles = 0 ∧
    min simC5'.store.total_power_produced simC5'.store.total_heat_dissipated < 1e12 ∧
    simC5'.calculate_prestige_ep = 0 := by
  have h1 : min simC5.store.total_power_produced simC5.store.total_heat_dissipated =
      1e12 := by
    norm_num [simC5]
  have h2 : min simC5'.store.total_power_produced simC5'.store.total_heat_dissipated <
      1e12 := by
    norm_num [simC5']
  exact ⟨rfl, h1, (prestige_ep_boundary simC5 rfl).1 h1, rfl, h2,
    (prestige_ep_boundary simC5' rfl).2 h2⟩

/-! ## C4 — save/restore round-trip -/

/-- A fold that appends a per-element block is concatenation of the blocks. -/
theorem foldl_append_form {α β : Type _} (g : α → List β) :
    ∀ (l : List α) (a : List β),
      l.foldl (fun acc x => acc ++ g x) a = a ++ l.flatMap g := by
  intro l
  induction l with
  | nil => intro a; simp
  | cons x t ih =>
    intro a
    rw [List.foldl_cons, ih, List.flatMap_cons, List.append_assoc]

/-- The restore loop written as a concatenation of per-record blocks. -/
theorem restoreComponents_eq_flatMap (shop : List ComponentTypeStats) (hg : Bool)
    (w h l : ℤ) (data : List SavedComponent) :
    restoreComponents shop hg w h l data = data.flatMap (fun cd =>
      match statsByName shop cd.name with
      | none => []
      | some stats =>
        let rc := mkReactorComponent
          { stats := stats, heat := cd.heat, durability := cd.durability,
            last_power := 0, last_heat := 0, depleted := cd.depleted,
            grid_x := cd.x, grid_y := cd.y, grid_z := cd.z, pulse_count := 0 }
        if hg = true ∧ inBoundsDims w h l rc.grid_x rc.grid_y rc.grid_z = true then [rc]
        else []) := by
  unfold restoreComponents
  rw [List.foldl_ext _ (fun acc cd => acc ++ (fun cd =>
      match statsByName shop cd.name with
      | none => []
      | some stats =>
        let rc := mkReactorComponent
          { stats := stats, heat := cd.heat, durability := cd.durability,
            last_power := 0, last_heat := 0, depleted := cd.depleted,
            grid_x := cd.x, grid_y := cd.y, grid_z := cd.z, pulse_count := 0 }
        if hg = true ∧ inBoundsDims w h l rc.grid_x rc.grid_y rc.grid_z = true then [rc]
        else []) cd) _ ?_]
  · rw [foldl_append_form]
    rfl
  · intro a cd _
    cases hm : statsByName shop cd.name with
    | none => simp [hm]
    | some st =>
      simp only [hm]
      split
      · rfl
      · rw [List.append_nil]

/-- `__post_init__` only touches durability: the grid coordinates survive. -/
theorem mkReactorComponent_grid_x (c : ReactorComponent) :
    (mkReactorComponent c).grid_x = c.grid_x := by
  unfold mkReactorComponent
  split <;> rfl

/-- `__post_init__` keeps the y coordinate. -/
theorem mkReactorComponent_grid_y (c : ReactorComponent) :
    (mkReactorComponent c).grid_y = c.grid_y := by
  unfold mkReactorComponent
  split <;> rfl

/-- `__post_init__` keeps the z coordinate. -/
theorem mkReactorComponent_grid_z (c : ReactorComponent) :
    (mkReactorComponent c).grid_z = c.grid_z := by
  unfold mkReactorComponent
  split <;> rfl

/-- Restoring the saved records of live components rebuilds exactly the
constructor-normalized components, provided every name resolves to its stats
and every position is within the given bounds. -/
theorem restoreComponents_of_saved (shop : List ComponentTypeStats) (w h l : ℤ) :
    ∀ (cs : List ReactorComponent),
      (∀ c ∈ cs, statsByName shop c.stats.name = some c.stats) →
      (∀ c ∈ cs, inBoundsDims w h l c.grid_x c.grid_y c.grid_z = true) →
      restoreComponents shop true w h l (cs.map fun c =>
        ({ name := c.stats.name, heat := c.heat, durability := c.durability,
           depleted := c.depleted, x := c.grid_x, y := c.grid_y, z := c.grid_z } :
          SavedComponent)) =
      cs.map fun c => mkReactorComponent
        { stats := c.stats, heat := c.heat, durability := c.durability,
          last_power := 0, last_heat := 0, depleted := c.depleted,
          grid_x := c.grid_x, grid_y := c.grid_y, grid_z := c.grid_z,
          pulse_count := 0 } := by
  intro cs
  induction cs with
  | nil => intro _ _; rfl
  | cons c t ih =>
    intro hname hb
    rw [List.map_cons, List.map_cons, restoreComponents_eq_flatMap, List.flatMap_cons,
      ← restoreComponents_eq_flatMap]
    have h1 := hname c (by simp)
    have h2 := hb c (by simp)
    simp only [h1]
    rw [if_pos ⟨by trivial, by
      rw [mkReactorComponent_grid_x, mkReactorComponent_grid_y, mkReactorComponent_grid_z]
      exact h2⟩]
    rw [ih (fun c' hc' => hname c' (by simp [hc'])) (fun c' hc' => hb c' (by simp [hc']))]
    rfl

/-- The restored upgrade list: each definition keeps its data and takes the
saved level at its index. -/
theorem restored_levels (tups sups : List UpgradeType)
    (hlen : tups.length = sups.length) :
    (tups.enum.map fun (p : ℕ × UpgradeType) =>
      match (sups.map fun u => u.level).get? p.1 with
      | some lv => { p.2 with level := lv }
      | none => p.2).map (fun u => u.level) = sups.map fun u => u.level := by
  apply List.ext_get?
  intro n
  simp only [List.get?_map, List.get?_enum]
  cases ht : tups.get? n with
  | none =>
    have hs : sups.get? n = none := by
      rw [List.get?_eq_none] at ht ⊢
      omega
    rw [hs]
    rfl
  | some u =>
    have hn : n < tups.length := by
      by_contra hge
      rw [List.get?_eq_none.mpr (Nat.le_of_not_lt hge)] at ht
      exact Option.noConfusion ht
    have hn' : n < sups.length := by omega
    have hv := List.get?_eq_get hn'
    simp only [Option.map_some']
    rw [hv]
    rfl

/-- The subspace level of the restored manager equals the saved one. -/
theorem subspaceLevel_restored (tups sups : List UpgradeType)
    (hlen : tups.length = sups.length) :
    subspaceLevel ⟨tups.enum.map fun (p : ℕ × UpgradeType) =>
      match (sups.map fun u => u.level).get? p.1 with
      | some lv => { p.2 with level := lv }
      | none => p.2⟩ = subspaceLevel ⟨sups⟩ := by
  unfold subspaceLevel
  have hlen2 : (tups.enum.map fun (p : ℕ × UpgradeType) =>
      match (sups.map fun u => u.level).get? p.1 with
      | some lv => { p.2 with level := lv }
      | none => p.2).length = sups.length := by
    rw [List.length_map, List.enum_length, hlen]
  by_cases hne : sups = []
  · subst hne
    simp only [List.length_nil] at hlen2
    rw [List.length_eq_zero] at hlen2
    rw [hlen2]
  · have hne2 : (tups.enum.map fun (p : ℕ × UpgradeType) =>
        match (sups.map fun u => u.level).get? p.1 with
        | some lv => { p.2 with level := lv }
        | none => p.2) ≠ [] := by
      intro hcon
      apply hne
      rw [← List.length_eq_zero, ← hlen2, hcon, List.length_nil]
    by_cases h50 : 50 < sups.length
    · rw [if_pos ⟨hne2, by rw [hlen2]; exact h50⟩, if_pos ⟨hne, h50⟩]
      have h50t : 50 < tups.length := by omega
      have hget : (tups.enum.map fun (p : ℕ × UpgradeType) =>
          match (sups.map fun u => u.level).get? p.1 with
          | some lv => { p.2 with level := lv }
          | none => p.2).get? 50 =
          some (match (sups.map fun u => u.level).get? 50 with
            | some lv => { (tups.get ⟨50, h50t⟩) with level := lv }
            | none => tups.get ⟨50, h50t⟩) := by
        rw [List.get?_map, List.get?_enum, List.get?_eq_get h50t]
        rfl
      rw [hget, List.get?_map, List.get?_eq_get (show 50 < sups.length from h50)]
      rfl
    · rw [if_neg (fun hcon => h50 (by rw [← hlen2]; exact hcon.2)),
        if_neg (fun hcon => h50 hcon.2)]

/-- Recomputing capacities does not touch the component list. -/
theorem recompute_components_eq (s' : Simulation) :
    s'.recompute_max_capacities.components = s'.components := rfl

/-- Recomputing capacities does not touch the upgrade manager. -/
theorem recompute_um_eq (s' : Simulation) :
    s'.recompute_max_capacities.upgrade_manager = s'.upgrade_manager := rfl

/-- Field effects of the subspace resize when a grid is present. -/
theorem resize_fields (s' : Simulation) (hg : s'.hasGrid = true) (bw bh : ℤ) :
    (s'.resize_grid_for_subspace bw bh).gridW = bw + subspaceLevel s'.upgrade_manager ∧
    (s'.resize_grid_for_subspace bw bh).gridH = bh + subspaceLevel s'.upgrade_manager ∧
    (s'.resize_grid_for_subspace bw bh).gridL = s'.gridL ∧
    (s'.resize_grid_for_subspace bw bh).hasGrid = s'.hasGrid ∧
    (s'.resize_grid_for_subspace bw bh).shop_components = s'.shop_components ∧
    (s'.resize_grid_for_subspace bw bh).upgrade_manager = s'.upgrade_manager := by
  simp only [Simulation.resize_grid_for_subspace]
  rw [if_neg (show ¬ (s'.hasGrid = false) by rw [hg]; simp)]
  by_cases hc : bw + subspaceLevel s'.upgrade_manager ≠ s'.gridW ∨
      bh + subspaceLevel s'.upgrade_manager ≠ s'.gridH
  · rw [if_pos hc]
    exact ⟨rfl, rfl, rfl, rfl, rfl, rfl⟩
  · rw [if_neg hc]
    push_neg at hc
    exact ⟨hc.1.symm, hc.2.symm, rfl, rfl, rfl, rfl⟩

/-- The upgrade list after a restore: each loaded definition takes the saved
level at its index. -/
theorem restore_levels_formula (t : Simulation) (d : SaveData) (hg : t.hasGrid = true) :
    (restore_from_dict t d).1.upgrade_manager.upgrades =
      t.upgrade_manager.upgrades.enum.map fun (p : ℕ × UpgradeType) =>
        match d.upgrade_levels.get? p.1 with
        | some lv => { p.2 with level := lv }
        | none => p.2 := by
  simp only [restore_from_dict]
  rw [recompute_um_eq]
  have := (resize_fields { t with
    store := { t.store with
      money := d.store.money,
      total_money := d.store.total_money,
      money_earned_this_game := d.store.money_earned_this_game,
      power := d.store.power,
      total_power_produced := d.store.total_power_produced,
      power_produced_this_game := d.store.power_produced_this_game,
      heat := d.store.heat,
      total_heat_dissipated := d.store.total_heat_dissipated,
      heat_dissipated_this_game := d.store.heat_dissipated_this_game,
      exotic_particles := d.store.exotic_particles,
      total_exotic_particles := d.store.total_exotic_particles },
    upgrade_manager := ⟨t.upgrade_manager.upgrades.enum.map fun (p : ℕ × UpgradeType) =>
      match d.upgrade_levels.get? p.1 with
      | some lv => { p.2 with level := lv }
      | none => p.2⟩ } (by exact hg) 19 16).2.2.2.2.2
  rw [this]

/-- The component list after a restore: the restore loop run against the
target's catalog and the subspace-resized grid dimensions. -/
theorem restore_components_formula (t : Simulation) (d : SaveData)
    (hg : t.hasGrid = true) :
    (restore_from_dict t d).1.components =
      restoreComponents t.shop_components true
        (19 + subspaceLevel ⟨t.upgrade_manager.upgrades.enum.map
          fun (p : ℕ × UpgradeType) =>
            match d.upgrade_levels.get? p.1 with
            | some lv => { p.2 with level := lv }
            | none => p.2⟩)
        (16 + subspaceLevel ⟨t.upgrade_manager.upgrades.enum.map
          fun (p : ℕ × UpgradeType) =>
            match d.upgrade_levels.get? p.1 with
            | some lv => { p.2 with level := lv }
            | none => p.2⟩)
        t.gridL d.components := by
  simp only [restore_from_dict]
  rw [recompute_components_eq]
  obtain ⟨hW, hH, hL, hG, hS, _⟩ := resize_fields { t with
    store := { t.store with
      money := d.store.money,
      total_money := d.store.total_money,
      money_earned_this_game := d.store.money_earned_this_game,
      power := d.store.power,
      total_power_produced := d.store.total_power_produced,
      power_produced_this_game := d.store.power_produced_this_game,
      heat := d.store.heat,
      total_heat_dissipated := d.store.total_heat_dissipated,
      heat_dissipated_this_game := d.store.heat_dissipated_this_game,
      exotic_particles := d.store.exotic_particles,
      total_exotic_particles := d.store.total_exotic_particles },
    upgrade_manager := ⟨t.upgrade_manager.upgrades.enum.map fun (p : ℕ × UpgradeType) =>
      match d.upgrade_levels.get? p.1 with
      | some lv => { p.2 with level := lv }
      | none => p.2⟩ } (by exact hg) 19 16
  rw [hW, hH, hL, hG, hS, hg]
  rfl

/-- C4 (amended): building a snapshot and restoring it into a simulation
with the same catalog reproduces component positions, heat values, depleted
flags and upgrade levels exactly; durability is also reproduced, except that
a saved durability of exactly 0 on a component type with positive
`max_durability` is re-filled to the full `max_durability` by the
`ReactorComponent` constructor (`__post_init__`). -/
theorem save_roundtrip_amended (s t : Simulation)
    (hshop : t.shop_components = s.shop_components)
    (hlen : t.upgrade_manager.upgrades.length = s.upgrade_manager.upgrades.length)
    (hgrid : t.hasGrid = true)
    (hname : ∀ c ∈ s.components,
      statsByName s.shop_components c.stats.name = some c.stats)
    (hb : ∀ c ∈ s.components,
      inBoundsDims (19 + subspaceLevel s.upgrade_manager)
        (16 + subspaceLevel s.upgrade_manager) t.gridL
        c.grid_x c.grid_y c.grid_z = true) :
    (restore_from_dict t (build_save_dict s)).1.components =
      s.components.map (fun c => mkReactorComponent
        { stats := c.stats, heat := c.heat, durability := c.durability,
          last_power := 0, last_heat := 0, depleted := c.depleted,
          grid_x := c.grid_x, grid_y := c.grid_y, grid_z := c.grid_z,
          pulse_count := 0 }) ∧
    (restore_from_dict t (build_save_dict s)).1.upgrade_manager.upgrades.map
        (fun u => u.level) =
      s.upgrade_manager.upgrades.map (fun u => u.level) := by
  have hsub : subspaceLevel ⟨t.upgrade_manager.upgrades.enum.map
      fun (p : ℕ × UpgradeType) =>
        match (build_save_dict s).upgrade_levels.get? p.1 with
        | some lv => { p.2 with level := lv }
        | none => p.2⟩ = subspaceLevel s.upgrade_manager := by
    exact subspaceLevel_restored t.upgrade_manager.upgrades s.upgrade_manager.upgrades hlen
  constructor
  · rw [restore_components_formula t _ hgrid, hsub, hshop]
    have hdc : (build_save_dict s).components = s.components.map (fun c =>
        ({ name := c.stats.name, heat := c.heat, durability := c.durability,
           depleted := c.depleted, x := c.grid_x, y := c.grid_y, z := c.grid_z } :
          SavedComponent)) := rfl
    rw [hdc]
    exact restoreComponents_of_saved s.shop_components _ _ _ s.components hname hb
  · rw [restore_levels_formula t _ hgrid]
    exact restored_levels t.upgrade_manager.upgrades s.upgrade_manager.upgrades hlen

/-- The catalog entry used by the C4 counterexample and witness. -/
noncomputable def ctsC4 : ComponentTypeStats :=
  { name := "Fuel1-1", energy_per_pulse := 1, heat_per_pulse := 1,
    pulses_produced := 1, max_durability := 15 }

/-- A simulation holding one fully drained (durability 0) depleted fuel cell. -/
noncomputable def simC4 : Simulation :=
  { components :=
      [{ stats := ctsC4, heat := 2, durability := 0, depleted := true,
         grid_x := 1, grid_y := 1, grid_z := 0 }],
    hasGrid := true, gridW := 19, gridH := 16, gridL := 1,
    shop_components := [ctsC4] }

/-- Counterexample to C4 as stated: snapshotting and restoring a drained
fuel cell whose durability is exactly 0 yields durability 15 (the full
`max_durability`), so the round trip does not reproduce durability values. -/
theorem save_roundtrip_counterexample :
    (simC4.components.map fun c => c.durability) = [0] ∧
    ((restore_from_dict simC4 (build_save_dict simC4)).1.components.map fun c =>
      c.durability) = [15] := by
  constructor
  · simp [simC4]
  · rw [restore_components_formula simC4 _ rfl]
    norm_num [restoreComponents, statsByName, mkReactorComponent, inBoundsDims,
      subspaceLevel, simC4, ctsC4, build_save_dict]

/-- A simulation with one live fuel cell at durability 7 for the C4 witness. -/
noncomputable def simC4w : Simulation :=
  { components :=
      [{ stats := ctsC4, heat := 3, durability := 7, depleted := false,
         grid_x := 2, grid_y := 5, grid_z := 0 }],
    hasGrid := true, gridW := 19, gridH := 16, gridL := 1,
    shop_components := [ctsC4] }

/-- Witness: the amended round trip evaluated on a concrete simulation. -/
theorem save_roundtrip_amended_witness :
    (∀ c ∈ simC4w.components,
      statsByName simC4w.shop_components c.stats.name = some c.stats) ∧
    (∀ c ∈ simC4w.components,
      inBoundsDims (19 + subspaceLevel simC4w.upgrade_manager)
        (16 + subspaceLevel simC4w.upgrade_manager) simC4w.gridL
        c.grid_x c.grid_y c.grid_z = true) ∧
    (restore_from_dict simC4w (build_save_dict simC4w)).1.components =
      simC4w.components.map (fun c => mkReactorComponent
        { stats := c.stats, heat := c.heat, durability := c.durability,
          last_power := 0, last_heat := 0, depleted := c.depleted,
          grid_x := c.grid_x, grid_y := c.grid_y, grid_z := c.grid_z,
          pulse_count := 0 }) ∧
    (restore_from_dict simC4w (build_save_dict simC4w)).1.upgrade_manager.upgrades.map
        (fun u => u.level) =
      simC4w.upgrade_manager.upgrades.map (fun u => u.level) := by
  have hname : ∀ c ∈ simC4w.components,
      statsByName simC4w.shop_components c.stats.name = some c.stats := by
    intro c hc
    simp only [simC4w, List.mem_singleton] at hc
    subst hc
    norm_num [statsByName, simC4w]
  have hb : ∀ c ∈ simC4w.components,
      inBoundsDims (19 + subspaceLevel simC4w.upgrade_manager)
        (16 + subspaceLevel simC4w.upgrade_manager) simC4w.gridL
        c.grid_x c.grid_y c.grid_z = true := by
    intro c hc
    simp only [simC4w, List.mem_singleton] at hc
    subst hc
    norm_num [inBoundsDims, subspaceLevel, simC4w]
  obtain ⟨h1, h2⟩ := save_roundtrip_amended simC4w simC4w rfl rfl rfl hname hb
  exact ⟨hname, hb, h1, h2⟩

/-! ## C6 — pulse distribution -/

/-- A fold whose step fixes one particular accumulator never leaves it. -/
theorem foldl_fixed {α β : Type _} (f : β → α → β) (b₀ : β) :
    ∀ l : List α, (∀ a ∈ l, f b₀ a = b₀) → l.foldl f b₀ = b₀ := by
  intro l
  induction l with
  | nil => intro _; rfl
  | cons a t ih =>
    intro h
    rw [List.foldl_cons, h a (by simp)]
    exact ih (fun a' ha' => h a' (by simp [ha']))

/-- Python truncation of the float 1.0. -/
theorem truncInt_one : truncInt 1 = 1 := by
  unfold truncInt
  rw [if_pos (by norm_num)]
  exact Int.floor_one

/-- A singleton component list misses every other position. -/
theorem compsGet_singleton_ne (w h l : ℤ) (c : ReactorComponent) (x y z : ℤ)
    (hne : ¬ (c.grid_x = x ∧ c.grid_y = y ∧ c.grid_z = z)) :
    compsGet w h l [c] x y z = none := by
  unfold compsGet
  split
  · have hp : (decide (c.grid_x = x) && decide (c.grid_y = y) && decide (c.grid_z = z)) =
        false := by
      simp only [Bool.and_eq_false_iff, decide_eq_false_iff_not]
      tauto
    rw [List.find?_cons_of_neg _ (by rw [hp]; exact Bool.noConfusion)]
    rfl
  · rfl

/-- A singleton component list is found at its own in-bounds position. -/
theorem compsGet_singleton_self (w h l : ℤ) (c : ReactorComponent)
    (hin : 0 ≤ c.grid_x ∧ c.grid_x < w ∧ 0 ≤ c.grid_y ∧ c.grid_y < h ∧
      0 ≤ c.grid_z ∧ c.grid_z < l) :
    compsGet w h l [c] c.grid_x c.grid_y c.grid_z = some c := by
  unfold compsGet
  rw [if_pos ⟨hin.1, hin.2.1, hin.2.2.1, hin.2.2.2.1, hin.2.2.2.2.1, hin.2.2.2.2.2⟩]
  rw [List.find?_cons_of_pos]
  simp

/-- The distribution body is the identity on a singleton list whose component
sits at a different position. -/
theorem distStep_singleton_offpos (w h l : ℤ) (c : ReactorComponent) (x y z : ℤ)
    (hne : ¬ (c.grid_x = x ∧ c.grid_y = y ∧ c.grid_z = z)) :
    distStep w h l [c] x y z = [c] := by
  unfold distStep
  rw [compsGet_singleton_ne w h l c x y z hne]

/-- Every cardinal neighbor coordinate differs from the center. -/
theorem mem_neighborCoords_ne (w h x y z : ℤ) (q : ℤ × ℤ × ℤ)
    (hq : q ∈ neighborCoords w h x y z) : ¬ (x = q.1 ∧ y = q.2.1 ∧ z = q.2.2) := by
  unfold neighborCoords at hq
  rcases List.mem_append.mp hq with hq' | hdown
  · rcases List.mem_append.mp hq' with hq'' | hup
    · rcases List.mem_append.mp hq'' with hleft | hright
      · split at hleft
        · simp only [List.mem_singleton] at hleft
          subst hleft
          intro hcon
          omega
        · exact absurd hleft (List.not_mem_nil q)
      · split at hright
        · simp only [List.mem_singleton] at hright
          subst hright
          intro hcon
          omega
        · exact absurd hright (List.not_mem_nil q)
    · split at hup
      · simp only [List.mem_singleton] at hup
        subst hup
        intro hcon
        have h2 : y = y - 1 := hcon.2.1
        omega
      · exact absurd hup (List.not_mem_nil q)
  · split at hdown
    · simp only [List.mem_singleton] at hdown
      subst hdown
      intro hcon
      have h2 : y = y + 1 := hcon.2.1
      omega
    · exact absurd hdown (List.not_mem_nil q)

/-- The distribution body at the cell of a lone single-core fuel cell with one
pulse per tick: the cell gains exactly one pulse and nothing else changes. -/
theorem distStep_singleton_atpos (w h l : ℤ) (c : ReactorComponent)
    (hin : 0 ≤ c.grid_x ∧ c.grid_x < w ∧ 0 ≤ c.grid_y ∧ c.grid_y < h ∧
      0 ≤ c.grid_z ∧ c.grid_z < l)
    (hdep : c.depleted = false) (hp : c.stats.pulses_produced = 1)
    (hcores : c.stats.number_of_cores = 1) :
    distStep w h l [c] c.grid_x c.grid_y c.grid_z =
      [{ c with pulse_count := c.pulse_count + 1 }] := by
  unfold distStep
  rw [compsGet_singleton_self w h l c hin]
  simp only [hdep, Bool.false_eq_true, if_false, hp, hcores, truncInt_one]
  rw [if_neg (by norm_num)]
  have hscale : (if (1 : ℤ) ≤ 1 then ((Nat.log2 (1 : ℤ).toNat : ℤ) + 1) else 1) = 1 := by
    rw [if_pos le_rfl]
    norm_num
    rw [Nat.log2_eq_log_two]
    exact Nat.log_one_right 2
  have hupd : updateComps [c] c.grid_x c.grid_y c.grid_z (fun c' =>
      { c' with pulse_count := c'.pulse_count +
        (if (1 : ℤ) ≤ 1 then ((Nat.log2 (1 : ℤ).toNat : ℤ) + 1) else 1) * 1 }) =
      [{ c with pulse_count := c.pulse_count + 1 }] := by
    unfold updateComps
    rw [List.map_cons, List.map_nil, if_pos ⟨rfl, rfl, rfl⟩, hscale]
    norm_num
  rw [hupd]
  set c1 : ReactorComponent := { c with pulse_count := c.pulse_count + 1 } with hc1
  have hc1pos : c1.grid_x = c.grid_x ∧ c1.grid_y = c.grid_y ∧ c1.grid_z = c.grid_z :=
    ⟨rfl, rfl, rfl⟩
  split
  · -- Stavrium: the row and column broadcasts find no other component
    rw [foldl_fixed _ [c1] _ (fun col _ => by
      by_cases hcol : col ≠ c.grid_x
      · rw [if_pos hcol,
          compsGet_singleton_ne w h l c1 col c.grid_y c.grid_z (by
            intro hcon
            exact hcol (by omega))]
      · rw [if_neg hcol])]
    rw [foldl_fixed _ [c1] _ (fun row _ => by
      by_cases hrow : row ≠ c.grid_y
      · rw [if_pos hrow,
          compsGet_singleton_ne w h l c1 c.grid_x row c.grid_z (by
            intro hcon
            exact hrow (by omega))]
      · rw [if_neg hrow])]
    simp [hc1, hdep]
  · -- standard: the four cardinal neighbors are empty
    rw [foldl_fixed _ [c1] _ (fun q hq => by
      have hne := mem_neighborCoords_ne w h c.grid_x c.grid_y c.grid_z q hq
      rw [compsGet_singleton_ne w h l c1 q.1 q.2.1 q.2.2 (by
        intro hcon
        exact hne ⟨by omega, by omega, by omega⟩)])]
    simp [hc1, hdep]

/-- Every in-bounds coordinate appears in the iteration order. -/
theorem mem_rowMajor (w h l x y z : ℤ) (hx : 0 ≤ x ∧ x < w) (hy : 0 ≤ y ∧ y < h)
    (hz : 0 ≤ z ∧ z < l) : (x, y, z) ∈ rowMajor w h l := by
  simp only [rowMajor, List.mem_flatMap, List.mem_map, List.mem_range]
  refine ⟨z.toNat, by omega, y.toNat, by omega, x.toNat, by omega, ?_⟩
  rw [Int.toNat_of_nonneg hx.1, Int.toNat_of_nonneg hy.1, Int.toNat_of_nonneg hz.1]

/-- The iteration order visits each cell exactly once. -/
theorem rowMajor_nodup (w h l : ℤ) : (rowMajor w h l).Nodup := by
  unfold rowMajor
  refine List.nodup_flatMap.mpr ⟨?_, ?_⟩
  · intro zz _
    refine List.nodup_flatMap.mpr ⟨?_, ?_⟩
    · intro yy _
      refine List.Nodup.map ?_ (List.nodup_range _)
      intro a b hab
      have : (a : ℤ) = (b : ℤ) := congrArg (fun q : ℤ × ℤ × ℤ => q.1) hab
      exact_mod_cast this
    · refine List.Pairwise.imp ?_ (List.nodup_range h.toNat)
      intro a b hab p hpa hpb
      obtain ⟨xa, _, rfl⟩ := List.mem_map.mp hpa
      obtain ⟨xb, _, he⟩ := List.mem_map.mp hpb
      have : (b : ℤ) = (a : ℤ) := congrArg (fun q : ℤ × ℤ × ℤ => q.2.1) he
      exact hab (by exact_mod_cast this.symm)
  · refine List.Pairwise.imp ?_ (List.nodup_range l.toNat)
    intro a b hab p hpa hpb
    obtain ⟨ya, _, hpa2⟩ := List.mem_flatMap.mp hpa
    obtain ⟨xa, _, rfl⟩ := List.mem_map.mp hpa2
    obtain ⟨yb, _, hpb2⟩ := List.mem_flatMap.mp hpb
    obtain ⟨xb, _, he⟩ := List.mem_map.mp hpb2
    have : (b : ℤ) = (a : ℤ) := congrArg (fun q : ℤ × ℤ × ℤ => q.2.2) he
    exact hab (by exact_mod_cast this.symm)

/-- A lone non-depleted single-core fuel cell producing one pulse per tick
ends the distribution stage with pulse count exactly 1. -/
theorem distribute_lone_cell (s : Simulation) (c : ReactorComponent)
    (hg : s.hasGrid = true) (hcs : s.components = [c])
    (hin : 0 ≤ c.grid_x ∧ c.grid_x < s.gridW ∧ 0 ≤ c.grid_y ∧ c.grid_y < s.gridH ∧
      0 ≤ c.grid_z ∧ c.grid_z < s.gridL)
    (hdep : c.depleted = false) (hp : c.stats.pulses_produced = 1)
    (hcores : c.stats.number_of_cores = 1) :
    s.distribute_pulses.components = [{ c with pulse_count := 1 }] := by
  unfold Simulation.distribute_pulses
  rw [if_neg (by rw [hg]; simp), hcs]
  have hmem : (c.grid_x, c.grid_y, c.grid_z) ∈ rowMajor s.gridW s.gridH s.gridL :=
    mem_rowMajor _ _ _ _ _ _ ⟨hin.1, hin.2.1⟩ ⟨hin.2.2.1, hin.2.2.2.1⟩
      ⟨hin.2.2.2.2.1, hin.2.2.2.2.2⟩
  obtain ⟨l₁, l₂, hsplit⟩ := List.append_of_mem hmem
  have hnd := rowMajor_nodup s.gridW s.gridH s.gridL
  rw [hsplit] at hnd
  have hnot2 : (c.grid_x, c.grid_y, c.grid_z) ∉ l₂ :=
    (List.nodup_cons.mp (List.nodup_append.mp hnd).2.1).1
  have hnot1 : (c.grid_x, c.grid_y, c.grid_z) ∉ l₁ := by
    intro hmem1
    exact ((List.nodup_append.mp hnd).2.2 hmem1) (List.mem_cons_self _ _)
  rw [hsplit]
  show List.foldl (fun cs q => distStep s.gridW s.gridH s.gridL cs q.1 q.2.1 q.2.2)
    [{ c with pulse_count := 0 }] (l₁ ++ (c.grid_x, c.grid_y, c.grid_z) :: l₂) =
    [{ c with pulse_count := 1 }]
  rw [List.foldl_append]
  set c0 : ReactorComponent := { c with pulse_count := 0 } with hc0
  have hfold1 : l₁.foldl (fun cs q => distStep s.gridW s.gridH s.gridL cs q.1 q.2.1 q.2.2)
      [{ c with pulse_count := 0 }] = [c0] := by
    apply foldl_fixed
    intro q hq
    apply distStep_singleton_offpos
    intro hcon
    apply hnot1
    have : q = (c.grid_x, c.grid_y, c.grid_z) := by
      have h1 : c0.grid_x = c.grid_x := rfl
      obtain ⟨e1, e2, e3⟩ := hcon
      rw [show c0.grid_x = c.grid_x from rfl] at e1
      rw [show c0.grid_y = c.grid_y from rfl] at e2
      rw [show c0.grid_z = c.grid_z from rfl] at e3
      obtain ⟨qx, qy, qz⟩ := q
      simp only at e1 e2 e3
      rw [← e1, ← e2, ← e3]
    rw [← this]
    exact hq
  rw [hfold1, List.foldl_cons]
  have hstep : distStep s.gridW s.gridH s.gridL [c0] c.grid_x c.grid_y c.grid_z =
      [{ c with pulse_count := 1 }] := by
    have := distStep_singleton_atpos s.gridW s.gridH s.gridL c0
      (by exact hin) (by exact hdep) (by exact hp) (by exact hcores)
    rw [show c0.grid_x = c.grid_x from rfl, show c0.grid_y = c.grid_y from rfl,
      show c0.grid_z = c.grid_z from rfl] at this
    rw [this]
    norm_num
  rw [hstep]
  apply foldl_fixed
  intro q hq
  apply distStep_singleton_offpos
  intro hcon
  apply hnot2
  have : q = (c.grid_x, c.grid_y, c.grid_z) := by
    obtain ⟨e1, e2, e3⟩ := hcon
    obtain ⟨qx, qy, qz⟩ := q
    simp only at e1 e2 e3
    rw [show ({ c with pulse_count := 1 } : ReactorComponent).grid_x = c.grid_x from rfl] at e1
    rw [show ({ c with pulse_count := 1 } : ReactorComponent).grid_y = c.grid_y from rfl] at e2
    rw [show ({ c with pulse_count := 1 } : ReactorComponent).grid_z = c.grid_z from rfl] at e3
    rw [← e1, ← e2, ← e3]
  rw [← this]
  exact hq

/-- A fresh component of type `st` at layer-0 position `(x, y)`. -/
def cell9 (st : ComponentTypeStats) (x y : ℤ) : ReactorComponent :=
  { stats := st, grid_x := x, grid_y := y, grid_z := 0 }

/-- A 3 × 3 × 1 reactor completely filled with components of type `st`,
listed in grid iteration order (the centre is entry 4). -/
def sim3x3 (st : ComponentTypeStats) : Simulation :=
  { components := [cell9 st 0 0, cell9 st 1 0, cell9 st 2 0,
                   cell9 st 0 1, cell9 st 1 1, cell9 st 2 1,
                   cell9 st 0 2, cell9 st 1 2, cell9 st 2 2],
    hasGrid := true, gridW := 3, gridH := 3, gridL := 1 }

/-- In the solid 3 × 3 block the centre cell ends the distribution stage
with pulse count 5: 1 from itself plus 1 from each cardinal neighbor. -/
theorem center_five (st : ComponentTypeStats)
    (hp : st.pulses_produced = 1) (hcores : st.number_of_cores = 1)
    (htid : st.component_type_id ≠ 20) :
    ((sim3x3 st).distribute_pulses).components.get? 4 =
      some { cell9 st 1 1 with pulse_count := 5 } := by
  have hlog : Nat.log2 1 = 0 := by
    rw [Nat.log2_eq_log_two]; exact Nat.log_one_right 2
  have hrm : rowMajor 3 3 1 =
      [(0,0,0),(1,0,0),(2,0,0),(0,1,0),(1,1,0),(2,1,0),(0,2,0),(1,2,0),(2,2,0)] := by
    rfl
  have hpz : ¬ (st.pulses_produced ≤ 0) := by rw [hp]; norm_num
  have htr : truncInt (1 : ℝ) = 1 := by
    unfold truncInt; norm_num
  set_option maxHeartbeats 1000000 in
  norm_num [Simulation.distribute_pulses, sim3x3, cell9, hrm, distStep, compsGet,
    updateComps, neighborCoords, hp, hcores, htid, hpz, htr, hlog, List.find?]

/-- C6 — Pulse distribution: after `_distribute_pulses`, (a) a non-depleted
single-core fuel cell producing one pulse, placed alone anywhere on the grid,
has `pulse_count = 1`; (b) in a solid 3 × 3 block of identical non-depleted
single-core one-pulse fuel cells (of any non-Stavrium type), the center cell
has `pulse_count = 5` — the self contribution `scale × pulses` with
`scale = floor(log2(cores)) + 1 = 1`, plus `pulses = 1` from each of the
4 cardinal neighbors. -/
theorem pulse_distribution :
    (∀ (s : Simulation) (c : ReactorComponent),
      s.hasGrid = true → s.components = [c] →
      (0 ≤ c.grid_x ∧ c.grid_x < s.gridW ∧ 0 ≤ c.grid_y ∧ c.grid_y < s.gridH ∧
        0 ≤ c.grid_z ∧ c.grid_z < s.gridL) →
      c.depleted = false → c.stats.pulses_produced = 1 →
      c.stats.number_of_cores = 1 →
      s.distribute_pulses.components = [{ c with pulse_count := 1 }]) ∧
    (∀ st : ComponentTypeStats,
      st.pulses_produced = 1 → st.number_of_cores = 1 →
      st.component_type_id ≠ 20 →
      ((sim3x3 st).distribute_pulses).components.get? 4 =
        some { cell9 st 1 1 with pulse_count := 5 }) :=
  ⟨fun s c hg hcs hin hdep hp hcores =>
    distribute_lone_cell s c hg hcs hin hdep hp hcores,
   fun st hp hcores htid => center_five st hp hcores htid⟩

/-- A concrete non-Stavrium single-core one-pulse fuel-cell type. -/
def ctsC6 : ComponentTypeStats :=
  { name := "Fuel1-1", pulses_produced := 1, number_of_cores := 1,
    component_type_id := 3 }

/-- A 1 × 1 × 1 reactor holding one `ctsC6` cell. -/
def simC6 : Simulation :=
  { components := [cell9 ctsC6 0 0], hasGrid := true,
    gridW := 1, gridH := 1, gridL := 1 }

/-- Witness for C6 at the concrete type `ctsC6`: a lone cell in a 1 × 1 grid
gets pulse count 1, the centre of the solid 3 × 3 block gets 5. -/
theorem pulse_distribution_witness :
    simC6.distribute_pulses.components = [{ cell9 ctsC6 0 0 with pulse_count := 1 }] ∧
    ((sim3x3 ctsC6).distribute_pulses).components.get? 4 =
      some { cell9 ctsC6 1 1 with pulse_count := 5 } :=
  ⟨pulse_distribution.1 simC6 (cell9 ctsC6 0 0) rfl rfl
      (by norm_num [simC6, cell9]) rfl rfl rfl,
   pulse_distribution.2 ctsC6 rfl rfl (by norm_num [ctsC6])⟩

/-! ## C7 — heat generation -/

/-- In-place update of a lone component at its own position. -/
theorem updateComps_singleton_self (c : ReactorComponent)
    (f : ReactorComponent → ReactorComponent) :
    updateComps [c] c.grid_x c.grid_y c.grid_z f = [f c] := by
  unfold updateComps
  rw [List.map_cons, List.map_nil, if_pos ⟨rfl, rfl, rfl⟩]

/-- The generation body is the identity on a singleton list whose component
sits at a different position. -/
theorem genStep_singleton_offpos (w h l : ℤ) (um : UpgradeManager) (pr : ℤ)
    (om : ℝ) (a : GenAcc) (c : ReactorComponent) (x y z : ℤ)
    (ha : a.comps = [c])
    (hne : ¬ (c.grid_x = x ∧ c.grid_y = y ∧ c.grid_z = z)) :
    genStep w h l um pr om a x y z = a := by
  unfold genStep
  rw [ha, compsGet_singleton_ne w h l c x y z hne]

/-- The generation body at the cell of a lone non-Kymium fuel cell: its heat
goes entirely to the reactor-hull accumulator and equals `fuelHeat`. -/
theorem genStep_singleton_atpos (w h l : ℤ) (um : UpgradeManager) (pr : ℤ)
    (om : ℝ) (tp th : ℝ) (c : ReactorComponent)
    (hin : 0 ≤ c.grid_x ∧ c.grid_x < w ∧ 0 ≤ c.grid_y ∧ c.grid_y < h ∧
      0 ≤ c.grid_z ∧ c.grid_z < l)
    (hdep : c.depleted = false) (hepp : ¬ (c.stats.energy_per_pulse ≤ 0))
    (htid : c.stats.component_type_id ≠ 18) :
    ∃ P : ℝ, genStep w h l um pr om ⟨[c], tp, th⟩ c.grid_x c.grid_y c.grid_z =
      ⟨[{ c with last_power := P, last_heat := fuelHeat um c }],
        tp + P, th + fuelHeat um c⟩ := by
  unfold genStep
  rw [show (GenAcc.mk [c] tp th).comps = [c] from rfl,
    compsGet_singleton_self w h l c hin]
  simp only [hdep, Bool.false_eq_true, if_false, if_neg hepp]
  rw [if_neg htid]
  rw [foldl_fixed _ (0 : ℤ) (neighborCoords w h c.grid_x c.grid_y c.grid_z)
    (fun q hq => by
      have hne := mem_neighborCoords_ne w h c.grid_x c.grid_y c.grid_z q hq
      rw [compsGet_singleton_ne w h l c q.1 q.2.1 q.2.2 hne])]
  rw [if_neg (lt_irrefl (0 : ℤ))]
  rw [updateComps_singleton_self]
  simp only [hdep]
  exact ⟨_, rfl⟩

/-- A lone non-Kymium fuel cell sends all its generated heat — exactly
`fuelHeat` — to the reactor hull accumulator. -/
theorem generate_heat_lone (s : Simulation) (c : ReactorComponent)
    (hg : s.hasGrid = true) (hcs : s.components = [c])
    (hin : 0 ≤ c.grid_x ∧ c.grid_x < s.gridW ∧ 0 ≤ c.grid_y ∧ c.grid_y < s.gridH ∧
      0 ≤ c.grid_z ∧ c.grid_z < s.gridL)
    (hdep : c.depleted = false) (hepp : ¬ (c.stats.energy_per_pulse ≤ 0))
    (htid : c.stats.component_type_id ≠ 18) :
    (s.generate_power_and_heat).2.2 = fuelHeat s.upgrade_manager c ∧
    (s.generate_power_and_heat).1.reactor_heat =
      s.reactor_heat + fuelHeat s.upgrade_manager c := by
  have hmem : (c.grid_x, c.grid_y, c.grid_z) ∈ rowMajor s.gridW s.gridH s.gridL :=
    mem_rowMajor _ _ _ _ _ _ ⟨hin.1, hin.2.1⟩ ⟨hin.2.2.1, hin.2.2.2.1⟩
      ⟨hin.2.2.2.2.1, hin.2.2.2.2.2⟩
  obtain ⟨l₁, l₂, hsplit⟩ := List.append_of_mem hmem
  have hnd := rowMajor_nodup s.gridW s.gridH s.gridL
  rw [hsplit] at hnd
  have hnot2 : (c.grid_x, c.grid_y, c.grid_z) ∉ l₂ :=
    (List.nodup_cons.mp (List.nodup_append.mp hnd).2.1).1
  have hnot1 : (c.grid_x, c.grid_y, c.grid_z) ∉ l₁ := by
    intro hmem1
    exact ((List.nodup_append.mp hnd).2.2 hmem1) (List.mem_cons_self _ _)
  unfold Simulation.generate_power_and_heat
  rw [if_neg (by rw [hg]; simp), hcs]
  simp only []
  rw [hsplit]
  generalize (if 1000 < s.reactor_heat then
      Real.log s.reactor_heat / Real.log 1000 *
        (s.upgrade_manager.get_upgrade_stat_bonus 1 StatCat.CELL_EFFECTIVENESS - 1) *
        0.01 + 1
    else (1 : ℝ)) = om
  rw [List.foldl_append]
  rw [foldl_fixed _ (⟨[c], 0, 0⟩ : GenAcc) l₁ (fun q hq =>
    genStep_singleton_offpos s.gridW s.gridH s.gridL s.upgrade_manager
      s.depleted_protium_count om _ c q.1 q.2.1 q.2.2 rfl (by
        intro hcon
        apply hnot1
        have hqe : q = (c.grid_x, c.grid_y, c.grid_z) := by
          obtain ⟨qx, qy, qz⟩ := q
          simp only at hcon
          rw [← hcon.1, ← hcon.2.1, ← hcon.2.2]
        rw [← hqe]
        exact hq))]
  rw [List.foldl_cons]
  obtain ⟨P, hstep⟩ := genStep_singleton_atpos s.gridW s.gridH s.gridL
    s.upgrade_manager s.depleted_protium_count om 0 0 c hin hdep hepp htid
  rw [hstep]
  rw [foldl_fixed _ _ l₂ (fun q hq =>
    genStep_singleton_offpos s.gridW s.gridH s.gridL s.upgrade_manager
      s.depleted_protium_count om _
      { c with last_power := P, last_heat := fuelHeat s.upgrade_manager c }
      q.1 q.2.1 q.2.2 rfl (by
        intro hcon
        apply hnot2
        have hqe : q = (c.grid_x, c.grid_y, c.grid_z) := by
          obtain ⟨qx, qy, qz⟩ := q
          simp only at hcon
          rw [← hcon.1, ← hcon.2.1, ← hcon.2.2]
        rw [← hqe]
        exact hq))]
  constructor
  · show (0 : ℝ) + fuelHeat s.upgrade_manager c = fuelHeat s.upgrade_manager c
    rw [zero_add]
  · show s.reactor_heat + ((0 : ℝ) + fuelHeat s.upgrade_manager c) =
      s.reactor_heat + fuelHeat s.upgrade_manager c
    rw [zero_add]

/-- Doubling the pulse count quadruples a fuel cell's generated heat. -/
theorem fuelHeat_double (um : UpgradeManager) (c : ReactorComponent) :
    fuelHeat um { c with pulse_count := 2 * c.pulse_count } = 4 * fuelHeat um c := by
  unfold fuelHeat
  push_cast
  ring

/-- The stat bonus of an empty upgrade manager is 1. -/
theorem stat_bonus_empty (t s : ℤ) :
    UpgradeManager.get_upgrade_stat_bonus {} t s = 1 := by
  unfold UpgradeManager.get_upgrade_stat_bonus
  norm_num

/-- A single-pulse fuel-cell type generating 8 heat per pulse. -/
def ctsC7f : ComponentTypeStats :=
  { name := "Fuel", energy_per_pulse := 1, heat_per_pulse := 8,
    component_type_id := 3 }

/-- A heat-absorbing component type (positive heat capacity). -/
def ctsC7a : ComponentTypeStats :=
  { name := "Vent", heat_capacity := 100, component_type_id := 5 }

/-- A 3 × 1 × 1 reactor: absorber, fuel cell with two pulses, absorber. -/
def simC7s : Simulation :=
  { components := [{ stats := ctsC7a, grid_x := 0 },
                   { stats := ctsC7f, grid_x := 1, pulse_count := 2 },
                   { stats := ctsC7a, grid_x := 2 }],
    hasGrid := true, gridW := 3, gridH := 1, gridL := 1 }

/-- The fuel cell's 2² × 8 / 1 = 32 heat is split equally (16 each) between
its two absorbing cardinal neighbors, and none reaches the hull. -/
theorem split_between_absorbers :
    ((simC7s.generate_power_and_heat).1.components.map fun c => c.heat) =
      [16, 0, 16] ∧
    (simC7s.generate_power_and_heat).1.reactor_heat = 0 := by
  have hrm : rowMajor 3 1 1 = [(0,0,0),(1,0,0),(2,0,0)] := rfl
  norm_num [Simulation.generate_power_and_heat, simC7s, ctsC7f, ctsC7a, hrm,
    genStep, fuelHeat, compsGet, updateComps, neighborCoords,
    stat_bonus_empty, List.find?]

/-- The number of cardinal neighbors of `(x, y, z)` holding a component with
positive heat capacity, exactly as counted inside
`Simulation._generate_power_and_heat`. -/
noncomputable def genAbsorberCount (w h l : ℤ) (cs : List ReactorComponent)
    (x y z : ℤ) : ℤ :=
  (neighborCoords w h x y z).foldl (fun acc q =>
    match compsGet w h l cs q.1 q.2.1 q.2.2 with
    | none => acc
    | some n => if 0 < n.stats.heat_capacity then acc + 1 else acc) 0

/-- One step of the heat-distribution loop of
`Simulation._generate_power_and_heat`: add `hpa` to the cell at `q` when it
holds a component with positive heat capacity. -/
noncomputable def heatSpreadStep (w h l : ℤ) (hpa : ℝ)
    (cs : List ReactorComponent) (q : ℤ × ℤ × ℤ) : List ReactorComponent :=
  match compsGet w h l cs q.1 q.2.1 q.2.2 with
  | none => cs
  | some n =>
    if 0 < n.stats.heat_capacity then
      updateComps cs q.1 q.2.1 q.2.2 fun c => { c with heat := c.heat + hpa }
    else cs

/-- Updating the cell at a different position does not change a positional
read, provided the update preserves the recorded positions. -/
theorem compsGet_updateComps_ne (w h l : ℤ) (cs : List ReactorComponent)
    (x y z x' y' z' : ℤ) (f : ReactorComponent → ReactorComponent)
    (hf : ∀ c : ReactorComponent,
      (f c).grid_x = c.grid_x ∧ (f c).grid_y = c.grid_y ∧ (f c).grid_z = c.grid_z)
    (hne : ¬ (x = x' ∧ y = y' ∧ z = z')) :
    compsGet w h l (updateComps cs x' y' z' f) x y z = compsGet w h l cs x y z := by
  unfold compsGet updateComps
  split
  · set g : ReactorComponent → ReactorComponent := fun c =>
      if c.grid_x = x' ∧ c.grid_y = y' ∧ c.grid_z = z' then f c else c with hg
    have hgpos : ∀ c : ReactorComponent,
        (g c).grid_x = c.grid_x ∧ (g c).grid_y = c.grid_y ∧ (g c).grid_z = c.grid_z := by
      intro c
      rw [hg]
      by_cases hc : c.grid_x = x' ∧ c.grid_y = y' ∧ c.grid_z = z'
      · simp only
        rw [if_pos hc]
        exact hf c
      · simp only
        rw [if_neg hc]
        exact ⟨rfl, rfl, rfl⟩
    induction cs with
    | nil => rfl
    | cons c t ih =>
      rw [List.map_cons]
      by_cases hp : (decide (c.grid_x = x) && decide (c.grid_y = y) &&
          decide (c.grid_z = z)) = true
      · have hp2 : (decide ((g c).grid_x = x) && decide ((g c).grid_y = y) &&
            decide ((g c).grid_z = z)) = true := by
          obtain ⟨e1, e2, e3⟩ := hgpos c
          rw [e1, e2, e3]
          exact hp
        rw [List.find?_cons_of_pos _ (by exact hp2), List.find?_cons_of_pos _ (by exact hp)]
        have hcpos : c.grid_x = x ∧ c.grid_y = y ∧ c.grid_z = z := by
          simp only [Bool.and_eq_true, decide_eq_true_eq] at hp
          exact ⟨hp.1.1, hp.1.2, hp.2⟩
        have hcne : ¬ (c.grid_x = x' ∧ c.grid_y = y' ∧ c.grid_z = z') := by
          intro hcon
          apply hne
          obtain ⟨a1, a2, a3⟩ := hcpos
          obtain ⟨b1, b2, b3⟩ := hcon
          exact ⟨by omega, by omega, by omega⟩
        rw [hg]
        simp only
        rw [if_neg hcne]
      · have hp2 : ¬ ((decide ((g c).grid_x = x) && decide ((g c).grid_y = y) &&
            decide ((g c).grid_z = z)) = true) := by
          obtain ⟨e1, e2, e3⟩ := hgpos c
          rw [e1, e2, e3]
          exact fun hx => hp hx
        rw [List.find?_cons_of_neg _ (by exact hp2), List.find?_cons_of_neg _ (by exact hp)]
        exact ih
  · rfl

/-- Reading back the updated cell returns the updated component, provided the
update preserves the recorded positions. -/
theorem compsGet_updateComps_eq (w h l : ℤ) (cs : List ReactorComponent)
    (x y z : ℤ) (f : ReactorComponent → ReactorComponent)
    (hf : ∀ c : ReactorComponent,
      (f c).grid_x = c.grid_x ∧ (f c).grid_y = c.grid_y ∧ (f c).grid_z = c.grid_z) :
    compsGet w h l (updateComps cs x y z f) x y z =
      Option.map f (compsGet w h l cs x y z) := by
  unfold compsGet updateComps
  split
  · set g : ReactorComponent → ReactorComponent := fun c =>
      if c.grid_x = x ∧ c.grid_y = y ∧ c.grid_z = z then f c else c with hg
    induction cs with
    | nil => rfl
    | cons c t ih =>
      rw [List.map_cons]
      by_cases hp : (decide (c.grid_x = x) && decide (c.grid_y = y) &&
          decide (c.grid_z = z)) = true
      · have hcpos : c.grid_x = x ∧ c.grid_y = y ∧ c.grid_z = z := by
          simp only [Bool.and_eq_true, decide_eq_true_eq] at hp
          exact ⟨hp.1.1, hp.1.2, hp.2⟩
        have hgc : g c = f c := by
          rw [hg]
          simp only
          rw [if_pos hcpos]
        have hp2 : (decide ((g c).grid_x = x) && decide ((g c).grid_y = y) &&
            decide ((g c).grid_z = z)) = true := by
          rw [hgc]
          obtain ⟨e1, e2, e3⟩ := hf c
          rw [e1, e2, e3]
          exact hp
        rw [List.find?_cons_of_pos _ (by exact hp2), List.find?_cons_of_pos _ (by exact hp)]
        rw [hgc, Option.map_some']
      · have hgc : g c = c := by
          rw [hg]
          simp only
          rw [if_neg (by
            intro hcon
            apply hp
            simp only [Bool.and_eq_true, decide_eq_true_eq]
            exact ⟨⟨hcon.1, hcon.2.1⟩, hcon.2.2⟩)]
        have hp2 : ¬ ((decide ((g c).grid_x = x) && decide ((g c).grid_y = y) &&
            decide ((g c).grid_z = z)) = true) := by
          rw [hgc]
          exact fun hx => hp hx
        rw [List.find?_cons_of_neg _ (by exact hp2), List.find?_cons_of_neg _ (by exact hp)]
        exact ih
  · rfl

/-- The cardinal neighbor list never repeats a coordinate. -/
theorem neighborCoords_nodup (w h x y z : ℤ) :
    (neighborCoords w h x y z).Nodup := by
  unfold neighborCoords
  split_ifs <;>
    simp [List.nodup_cons, List.nodup_append, List.mem_append, Prod.ext_iff,
      List.Disjoint] <;>
    omega

/-- The heat-distribution loop never changes a cell it does not visit. -/
theorem foldl_heatSpread_preserve (w h l : ℤ) (hpa : ℝ) (q0 : ℤ × ℤ × ℤ) :
    ∀ (L : List (ℤ × ℤ × ℤ)) (cs : List ReactorComponent), q0 ∉ L →
      compsGet w h l (L.foldl (heatSpreadStep w h l hpa) cs) q0.1 q0.2.1 q0.2.2 =
        compsGet w h l cs q0.1 q0.2.1 q0.2.2 := by
  intro L
  induction L with
  | nil => intro cs _; rfl
  | cons q L ih =>
    intro cs hq0
    rw [List.foldl_cons]
    rw [ih _ (fun hmem => hq0 (List.mem_cons_of_mem _ hmem))]
    have hne : q ≠ q0 := fun he => hq0 (he ▸ List.mem_cons_self _ _)
    unfold heatSpreadStep
    rcases hc : compsGet w h l cs q.1 q.2.1 q.2.2 with _ | n
    · rfl
    · simp only
      by_cases hcap : 0 < n.stats.heat_capacity
      · rw [if_pos hcap]
        apply compsGet_updateComps_ne
        · intro c; exact ⟨rfl, rfl, rfl⟩
        · intro hcon
          apply hne
          obtain ⟨qa, qb, qc⟩ := q
          obtain ⟨pa, pb, pc⟩ := q0
          simp only at hcon
          rw [hcon.1, hcon.2.1, hcon.2.2]
      · rw [if_neg hcap]

/-- After the heat-distribution loop, a visited absorbing cell holds its
component with exactly `hpa` more heat. -/
theorem foldl_heatSpread_at (w h l : ℤ) (hpa : ℝ) (ns : List (ℤ × ℤ × ℤ))
    (hnd : ns.Nodup) (q0 : ℤ × ℤ × ℤ) (hq0 : q0 ∈ ns) (cs : List ReactorComponent)
    (n : ReactorComponent)
    (hn : compsGet w h l cs q0.1 q0.2.1 q0.2.2 = some n)
    (hcap : 0 < n.stats.heat_capacity) :
    compsGet w h l (ns.foldl (heatSpreadStep w h l hpa) cs) q0.1 q0.2.1 q0.2.2 =
      some { n with heat := n.heat + hpa } := by
  obtain ⟨L1, L2, hsplit⟩ := List.append_of_mem hq0
  rw [hsplit] at hnd ⊢
  have hnot2 : q0 ∉ L2 := (List.nodup_cons.mp (List.nodup_append.mp hnd).2.1).1
  have hnot1 : q0 ∉ L1 := fun hm =>
    ((List.nodup_append.mp hnd).2.2 hm) (List.mem_cons_self _ _)
  rw [List.foldl_append, List.foldl_cons]
  set csA : List ReactorComponent := L1.foldl (heatSpreadStep w h l hpa) cs with hcsA
  have hL1 : compsGet w h l csA q0.1 q0.2.1 q0.2.2 = some n := by
    rw [hcsA, foldl_heatSpread_preserve w h l hpa q0 L1 cs hnot1]
    exact hn
  rw [foldl_heatSpread_preserve w h l hpa q0 L2 _ hnot2]
  unfold heatSpreadStep
  simp only [hL1]
  rw [if_pos hcap]
  rw [compsGet_updateComps_eq w h l csA q0.1 q0.2.1 q0.2.2
    (fun c => { c with heat := c.heat + hpa }) (fun c => ⟨rfl, rfl, rfl⟩)]
  rw [hL1, Option.map_some']

/-- For every non-Kymium fuel cell in any configuration, the generation body
delivers exactly `fuelHeat`: entirely to the hull accumulator when no cardinal
neighbor absorbs, otherwise split equally among the absorbing neighbors. -/
theorem genStep_heat (w h l : ℤ) (um : UpgradeManager) (pr : ℤ) (om : ℝ)
    (a : GenAcc) (x y z : ℤ) (comp : ReactorComponent)
    (hcomp : compsGet w h l a.comps x y z = some comp)
    (hdep : comp.depleted = false)
    (hepp : ¬ (comp.stats.energy_per_pulse ≤ 0))
    (htid : comp.stats.component_type_id ≠ 18) :
    (genAbsorberCount w h l a.comps x y z = 0 →
      (genStep w h l um pr om a x y z).total_heat_to_reactor =
        a.total_heat_to_reactor + fuelHeat um comp) ∧
    (0 < genAbsorberCount w h l a.comps x y z →
      (genStep w h l um pr om a x y z).total_heat_to_reactor =
        a.total_heat_to_reactor ∧
      ∀ q ∈ neighborCoords w h x y z, ∀ n : ReactorComponent,
        compsGet w h l a.comps q.1 q.2.1 q.2.2 = some n →
        0 < n.stats.heat_capacity →
        compsGet w h l (genStep w h l um pr om a x y z).comps q.1 q.2.1 q.2.2 =
          some { n with heat := n.heat +
                   fuelHeat um comp / (genAbsorberCount w h l a.comps x y z : ℝ) }) := by
  obtain ⟨cs, tp, th⟩ := a
  simp only at hcomp ⊢
  unfold genStep
  simp only [hcomp, hdep, Bool.false_eq_true, if_false, if_neg hepp]
  rw [if_neg htid]
  have hfold : ((neighborCoords w h x y z).foldl (fun acc q =>
      match compsGet w h l cs q.1 q.2.1 q.2.2 with
      | none => acc
      | some n => if 0 < n.stats.heat_capacity then acc + 1 else acc) 0 : ℤ) =
      genAbsorberCount w h l cs x y z := rfl
  rw [hfold]
  constructor
  · intro hac
    rw [hac]
    rw [if_neg (lt_irrefl (0 : ℤ))]
  · intro hac
    rw [if_pos hac]
    refine ⟨rfl, ?_⟩
    intro q hq n hn hcap
    have hner : ¬ (q.1 = x ∧ q.2.1 = y ∧ q.2.2 = z) := by
      have h0 := mem_neighborCoords_ne w h x y z q hq
      intro hcon
      exact h0 ⟨hcon.1.symm, hcon.2.1.symm, hcon.2.2.symm⟩
    refine foldl_heatSpread_at w h l _ (neighborCoords w h x y z)
      (neighborCoords_nodup w h x y z) q hq _ n ?_ hcap
    refine (compsGet_updateComps_ne w h l cs q.1 q.2.1 q.2.2 x y z _ ?_ hner).trans hn
    intro c
    exact ⟨rfl, rfl, rfl⟩

/-- C7 (amended) — Heat generation, for every non-Kymium fuel cell in every
grid configuration: (1) doubling a fuel cell's pulse count quadruples
`fuelHeat = pulse_count² · heat_per_pulse · bonus / max 1 (cell_width ·
cell_height)`; (2) processing the cell during the generation pass adds
exactly `fuelHeat` to the reactor hull accumulator when no cardinal neighbor
has positive heat capacity, and otherwise leaves the hull accumulator
unchanged while raising each absorbing cardinal neighbor's stored heat by
exactly `fuelHeat / absorberCount` (equal split).  Kymium cells (type id 18)
are exempt: their heat is additionally scaled by the cosine pulsation factor
`(1 + cos φ)/2`. -/
theorem heat_generation_amended :
    (∀ (um : UpgradeManager) (c : ReactorComponent),
      fuelHeat um { c with pulse_count := 2 * c.pulse_count } =
        4 * fuelHeat um c) ∧
    (∀ (w h l : ℤ) (um : UpgradeManager) (pr : ℤ) (om : ℝ) (a : GenAcc)
        (x y z : ℤ) (comp : ReactorComponent),
      compsGet w h l a.comps x y z = some comp →
      comp.depleted = false →
      ¬ (comp.stats.energy_per_pulse ≤ 0) →
      comp.stats.component_type_id ≠ 18 →
      (genAbsorberCount w h l a.comps x y z = 0 →
        (genStep w h l um pr om a x y z).total_heat_to_reactor =
          a.total_heat_to_reactor + fuelHeat um comp) ∧
      (0 < genAbsorberCount w h l a.comps x y z →
        (genStep w h l um pr om a x y z).total_heat_to_reactor =
          a.total_heat_to_reactor ∧
        ∀ q ∈ neighborCoords w h x y z, ∀ n : ReactorComponent,
          compsGet w h l a.comps q.1 q.2.1 q.2.2 = some n →
          0 < n.stats.heat_capacity →
          compsGet w h l (genStep w h l um pr om a x y z).comps q.1 q.2.1 q.2.2 =
            some { n with heat := n.heat +
                     fuelHeat um comp /
                       (genAbsorberCount w h l a.comps x y z : ℝ) })) :=
  ⟨fun um c => fuelHeat_double um c,
   fun w h l um pr om a x y z comp hcomp hdep hepp htid =>
     genStep_heat w h l um pr om a x y z comp hcomp hdep hepp htid⟩

/-- A Kymium fuel-cell type (id 18): 8 heat per pulse, 16 max durability. -/
def ctsC7k : ComponentTypeStats :=
  { name := "Kymium", energy_per_pulse := 1, heat_per_pulse := 8,
    max_durability := 16, component_type_id := 18 }

/-- A Kymium cell at durability 1 of 16: phase `8π/16 = π/2`, `cos = 0`. -/
def compC7k : ReactorComponent :=
  { stats := ctsC7k, durability := 1, pulse_count := 1 }

/-- A 1 × 1 × 1 reactor holding the Kymium cell. -/
def simC7k : Simulation :=
  { components := [compC7k], hasGrid := true, gridW := 1, gridH := 1, gridL := 1 }

/-- C7 counterexample: the lone Kymium cell generates only 4 heat — the
cosine pulsation halves it — while the claimed formula
`pulse_count² × heat_per_pulse / cell_area` gives 8. -/
theorem heat_generation_counterexample :
    (simC7k.generate_power_and_heat).2.2 = 4 ∧
    fuelHeat simC7k.upgrade_manager compC7k = 8 := by
  have hrm : rowMajor 1 1 1 = [(0,0,0)] := rfl
  have hcos : Real.cos (1 / 2 * Real.pi) = 0 := by
    rw [show (1 : ℝ) / 2 * Real.pi = Real.pi / 2 by ring]
    exact Real.cos_pi_div_two
  norm_num [Simulation.generate_power_and_heat, simC7k, compC7k, ctsC7k, hrm,
    genStep, fuelHeat, compsGet, updateComps, neighborCoords,
    stat_bonus_empty, List.find?, hcos]

/-- A lone non-Kymium fuel cell with one pulse. -/
def compC7w : ReactorComponent := { stats := ctsC7f, pulse_count := 1 }

/-- A 1 × 1 × 1 reactor holding `compC7w`. -/
def simC7h : Simulation :=
  { components := [compC7w], hasGrid := true, gridW := 1, gridH := 1, gridL := 1 }

/-- The fuel cell sitting at `(1, 0, 0)` of `simC7s`. -/
def compC7mid : ReactorComponent :=
  { stats := ctsC7f, grid_x := 1, pulse_count := 2 }

/-- Witness for the amended C7 theorem at concrete inputs: the quadrupling
law at `compC7w`, the hull case for the lone cell `compC7w` on a 1 × 1 grid,
and the equal split for the absorber–fuel–absorber row of `simC7s`. -/
theorem heat_generation_amended_witness :
    (fuelHeat {} { compC7w with pulse_count := 2 * compC7w.pulse_count } =
      4 * fuelHeat {} compC7w) ∧
    ((genStep 1 1 1 {} 0 1 ⟨[compC7w], 0, 0⟩ 0 0 0).total_heat_to_reactor =
      (0 : ℝ) + fuelHeat {} compC7w) ∧
    ((genStep 3 1 1 {} 0 1 ⟨simC7s.components, 0, 0⟩ 1 0 0).total_heat_to_reactor =
      (0 : ℝ) ∧
      ∀ q ∈ neighborCoords 3 1 1 0 0, ∀ n : ReactorComponent,
        compsGet 3 1 1 simC7s.components q.1 q.2.1 q.2.2 = some n →
        0 < n.stats.heat_capacity →
        compsGet 3 1 1
            (genStep 3 1 1 {} 0 1 ⟨simC7s.components, 0, 0⟩ 1 0 0).comps
            q.1 q.2.1 q.2.2 =
          some { n with heat := n.heat +
                   fuelHeat {} compC7mid /
                     (genAbsorberCount 3 1 1 simC7s.components 1 0 0 : ℝ) }) :=
  ⟨heat_generation_amended.1 {} compC7w,
   (heat_generation_amended.2 1 1 1 {} 0 1 ⟨[compC7w], 0, 0⟩ 0 0 0 compC7w rfl rfl
     (by norm_num [compC7w, ctsC7f]) (by norm_num [compC7w, ctsC7f])).1 rfl,
   (heat_generation_amended.2 3 1 1 {} 0 1 ⟨simC7s.components, 0, 0⟩ 1 0 0
     compC7mid rfl rfl
     (by norm_num [compC7mid, ctsC7f]) (by norm_num [compC7mid, ctsC7f])).2
     (by norm_num [genAbsorberCount, neighborCoords, compsGet, simC7s, ctsC7a,
       ctsC7f, List.find?])⟩

/-! ## C1 — meltdown -/

/-- Folding `erase` over a list removes at least `count` occurrences. -/
theorem foldl_erase_count {α : Type _} [BEq α] [LawfulBEq α] :
    ∀ (L cs : List α) (a : α), cs.count a ≤ L.count a →
      (L.foldl (fun cs c => cs.erase c) cs).count a = 0 := by
  intro L
  induction L with
  | nil =>
    intro cs a h
    rw [List.foldl_nil]
    rw [List.count_nil] at h
    omega
  | cons b L ih =>
    intro cs a h
    rw [List.foldl_cons]
    apply ih
    rw [List.count_erase]
    rw [List.count_cons] at h
    by_cases hba : b = a
    · subst hba
      simp at h ⊢
      omega
    · have h1 : (b == a) = false := by
        rw [beq_eq_false_iff_ne]
        exact hba
      rw [h1]
      rw [h1] at h
      simp only [Bool.false_eq_true, if_false] at h ⊢
      omega

/-- Folding `erase` over a list yields a sublist. -/
theorem foldl_erase_sublist {α : Type _} [BEq α] :
    ∀ (L cs : List α), (L.foldl (fun cs c => cs.erase c) cs).Sublist cs := by
  intro L
  induction L with
  | nil => intro cs; exact List.Sublist.refl _
  | cons b L ih =>
    intro cs
    rw [List.foldl_cons]
    exact (ih _).trans (List.erase_sublist _ _)

/-- After erasing every element that satisfies `p` (collected by `filter`),
no element of the result satisfies `p`. -/
theorem erase_fold_no_sat {α : Type _} [BEq α] [LawfulBEq α] (p : α → Bool)
    (cs : List α) :
    ∀ c ∈ (cs.filter p).foldl (fun cs c => cs.erase c) cs, p c = false := by
  intro c hc
  by_cases hp : p c = true
  · exfalso
    have hz := foldl_erase_count (cs.filter p) cs c
      (le_of_eq (List.count_filter hp).symm)
    rw [List.count_eq_zero] at hz
    exact hz hc
  · exact Bool.eq_false_iff.mpr hp

/-- C1 (amended) — Meltdown: when `max_reactor_heat > 0` and
`reactor_heat ≥ 2 × max_reactor_heat` at the time of the explosion check,
`_check_explosions` destroys every *non-depleted* component: each survivor is
depleted, and when no placed component was depleted the component list becomes
empty and every derived grid cell reads `None`.  Already-depleted components
are skipped by the destruction loop and survive the meltdown, which is why
`_do_tick` does not empty the list in general (see the counterexample). -/
theorem meltdown_amended (s : Simulation) (hg : s.hasGrid = true)
    (hmax : 0 < s.max_reactor_heat)
    (hheat : 2 * s.max_reactor_heat ≤ s.reactor_heat) :
    (∀ c ∈ s.check_explosions.components, c.depleted = true) ∧
    ((∀ c ∈ s.components, c.depleted = false) →
      s.check_explosions.components = [] ∧
      ∀ x y z : ℤ, compsGet s.gridW s.gridH s.gridL
        s.check_explosions.components x y z = none) := by
  unfold Simulation.check_explosions
  rw [if_neg (by rw [hg]; simp)]
  simp only []
  set pfun : ReactorComponent → Bool := (fun c =>
    if c.depleted = true then false
    else
      if 0 < c.stats.heat_capacity then
        decide (0 < s.max_reactor_heat ∧ 2 * s.max_reactor_heat ≤ s.reactor_heat ∨
          c.stats.heat_capacity *
              s.upgrade_manager.get_upgrade_stat_bonus c.stats.component_type_id
                StatCat.HEAT_CAPACITY ≤ c.heat)
      else decide (0 < s.max_reactor_heat ∧ 2 * s.max_reactor_heat ≤ s.reactor_heat))
    with hpfun
  set cs0 : List ReactorComponent :=
    (if s.max_reactor_heat < s.reactor_heat ∧ 0 < s.max_reactor_heat then
      List.map
        (fun c =>
          if 0 < c.stats.heat_capacity ∧ c.depleted = false then
            { c with heat := c.heat + (s.reactor_heat - s.max_reactor_heat) * 0.05 }
          else c)
        s.components
    else s.components) with hcs0
  set td : List ReactorComponent := List.filter pfun cs0 with htd
  set cs1 : List ReactorComponent :=
    List.foldl (fun cs c => cs.erase c) cs0 td with hcs1
  have hmem0 : ∀ c ∈ cs1, c ∈ cs0 := fun c hc =>
    (foldl_erase_sublist td cs0).subset (hcs1 ▸ hc)
  have hno : ∀ c ∈ cs1, pfun c = false := fun c hc =>
    erase_fold_no_sat pfun cs0 c (by rw [← htd, ← hcs1]; exact hc)
  have hkey : ∀ c ∈ cs1, c.depleted = true := by
    intro c hc
    have hpf := hno c hc
    by_cases hd : c.depleted = true
    · exact hd
    · exfalso
      rw [hpfun] at hpf
      simp only at hpf
      rw [if_neg hd] at hpf
      by_cases hcap : 0 < c.stats.heat_capacity
      · rw [if_pos hcap, decide_eq_false_iff_not] at hpf
        exact hpf (Or.inl ⟨hmax, hheat⟩)
      · rw [if_neg hcap, decide_eq_false_iff_not] at hpf
        exact hpf ⟨hmax, hheat⟩
  have hmain : (∀ c ∈ List.map (fun c =>
        if c.heat < 0.01 then { c with heat := 0 } else c) cs1, c.depleted = true) ∧
      ((∀ c ∈ s.components, c.depleted = false) →
        List.map (fun c => if c.heat < 0.01 then { c with heat := 0 } else c) cs1 = [] ∧
        ∀ x y z : ℤ, compsGet s.gridW s.gridH s.gridL
          (List.map (fun c => if c.heat < 0.01 then { c with heat := 0 } else c) cs1)
          x y z = none) := by
    constructor
    · intro c hc
      obtain ⟨c0, hc0, rfl⟩ := List.mem_map.mp hc
      have hd := hkey c0 hc0
      by_cases hsmall : c0.heat < 0.01
      · rw [if_pos hsmall]
        exact hd
      · rw [if_neg hsmall]
        exact hd
    · intro hall
      have hdep0 : ∀ c ∈ cs0, c.depleted = false := by
        intro c hc
        rw [hcs0] at hc
        by_cases hov : s.max_reactor_heat < s.reactor_heat ∧ 0 < s.max_reactor_heat
        · rw [if_pos hov] at hc
          obtain ⟨c2, hc2, rfl⟩ := List.mem_map.mp hc
          by_cases hb : 0 < c2.stats.heat_capacity ∧ c2.depleted = false
          · rw [if_pos hb]
            exact hall c2 hc2
          · rw [if_neg hb]
            exact hall c2 hc2
        · rw [if_neg hov] at hc
          exact hall c hc
      have hnil : cs1 = [] := by
        rw [List.eq_nil_iff_forall_not_mem]
        intro c hc
        have hd := hkey c hc
        have hdf := hdep0 c (hmem0 c hc)
        rw [hd] at hdf
        exact Bool.noConfusion hdf
      rw [hnil]
      refine ⟨rfl, ?_⟩
      intro x y z
      unfold compsGet
      split
      · rfl
      · rfl
  have hrc : ∀ t : Simulation, t.recompute_max_capacities.components = t.components :=
    fun t => rfl
  by_cases htd0 : td ≠ []
  · rw [if_pos htd0, hrc]
    exact hmain
  · rw [if_neg htd0]
    exact hmain

/-- An inert component type (all stats zero) in the depleted state. -/
def compC1 : ReactorComponent := { stats := {}, depleted := true }

/-- A 1 × 1 × 1 reactor in meltdown range (`reactor_heat = 2 × max`) holding
only the depleted component. -/
def simC1 : Simulation :=
  { components := [compC1], hasGrid := true, gridW := 1, gridH := 1, gridL := 1,
    reactor_heat := 2000, max_reactor_heat := 1000, pulsesDirty := false }

/-- `simC1` after the head stages of the tick (only the tick counter moves). -/
def simC1a : Simulation :=
  { components := [compC1], hasGrid := true, gridW := 1, gridH := 1, gridL := 1,
    reactor_heat := 2000, max_reactor_heat := 1000, pulsesDirty := false,
    total_ticks := 1 }

/-- `simC1a` after the auto-vent stage (5% of the 1000 excess is vented). -/
def simC1b : Simulation :=
  { components := [compC1], hasGrid := true, gridW := 1, gridH := 1, gridL := 1,
    reactor_heat := 1950, max_reactor_heat := 1000, pulsesDirty := false,
    total_ticks := 1, last_heat_change := -50,
    store := { total_heat_dissipated := 50, heat_dissipated_this_game := 50 } }

/-- Iteration order of the 1 × 1 × 1 grid. -/
theorem hrm111 : rowMajor 1 1 1 = [(0,0,0)] := rfl

/-- Stage 1 on `simC1a`: with no upgrades every multiplier stays 1. -/
theorem tickC1_prep : simC1.upgrade_manager.prepare_multipliers simC1a = simC1a := by
  norm_num [UpgradeManager.prepare_multipliers, Simulation.sum_component_tiers,
    stat_bonus_empty, simC1, simC1a, compC1]

/-- Stage 3 on `simC1a`: the depleted component loses no durability. -/
theorem tickC1_drain : simC1a.drain_durability = simC1a := rfl

/-- Stages 1-3 on `simC1`: only the tick counter changes. -/
theorem tickC1_head : simC1.tick_head = simC1a := by
  unfold Simulation.tick_head
  simp only []
  have e0 : ({ simC1 with last_heat_change := 0, last_power_change := 0, total_ticks := simC1.total_ticks + 1 } : Simulation) = simC1a := by norm_num [simC1, simC1a]
  rw [e0]
  rw [tickC1_prep]
  rw [if_neg (by norm_num [simC1a])]
  exact tickC1_drain

/-- Stage 4 on `simC1a`: the depleted component generates nothing. -/
theorem tickC1_gen : simC1a.generate_power_and_heat = (simC1a, 0, 0) := by
  norm_num [Simulation.generate_power_and_heat, genStep, compsGet, hrm111,
    simC1a, compC1, List.find?, stat_bonus_empty, updateComps, neighborCoords,
    fuelHeat, rangeInt]

/-- Stage 5 on `simC1a`: no Exchanger, no heat exchange. -/
theorem tickC1_hx : simC1a.heat_exchange = simC1a := rfl

/-- Stage 5b on `simC1a`: no Coolant6, no extreme-coolant absorption. -/
theorem tickC1_ec : simC1a.extreme_coolant_absorb = simC1a := rfl

/-- Stage 6 on `simC1a`: no Inlet or Outlet, no hull exchange. -/
theorem tickC1_hull : simC1a.exchange_with_hull = simC1a := by
  norm_num [Simulation.exchange_with_hull, absorberCountAt, compsGet,
    neighborCoords, simC1a, compC1, List.find?, List.range_succ, List.range_zero,
    updateComps, stat_bonus_empty]

/-- Stage 7 on `simC1a`: no self-venting component. -/
theorem tickC1_vent : simC1a.vent_heat_to_air = (simC1a, 0) := by
  norm_num [Simulation.vent_heat_to_air, simC1a, compC1, List.range_succ,
    List.range_zero, stat_bonus_empty]

/-- Stages 4-7 on `simC1a`: the state and the net heat accumulator are
unchanged. -/
theorem tickC1_mid : simC1a.tick_middle = (simC1a, 0) := by
  unfold Simulation.tick_middle
  simp only []
  rw [tickC1_gen]
  simp only []
  rw [show ({ (simC1a, (0 : ℝ), (0 : ℝ)).1 with
      last_power_change := (simC1a, (0 : ℝ), (0 : ℝ)).1.last_power_change +
        (simC1a, (0 : ℝ), (0 : ℝ)).2.1,
      last_heat_change := (simC1a, (0 : ℝ), (0 : ℝ)).1.last_heat_change +
        (simC1a, (0 : ℝ), (0 : ℝ)).2.2 } : Simulation) = simC1a from by
    norm_num [simC1a]]
  rw [tickC1_hx, tickC1_ec, tickC1_hull, tickC1_vent]
  norm_num [simC1a]

/-- Stage 8 on `simC1a`: the depleted component is skipped by the destruction
loop, so the meltdown destroys nothing. -/
theorem tickC1_ce : simC1a.check_explosions = simC1a := by
  set_option maxHeartbeats 1000000 in
  norm_num [Simulation.check_explosions, simC1a, compC1, stat_bonus_empty]

/-- Auto-vent stage on `simC1a`: the hull vents 5% of the excess. -/
theorem tickC1_av : simC1a.tick_auto_vent 0 = simC1b := by
  set_option maxHeartbeats 1000000 in
  norm_num [Simulation.tick_auto_vent, Simulation.auto_vent_rate_per_tick,
    stat_bonus_empty, simC1a, simC1b, compC1]

/-- Auto-sell stage on `simC1b`: nothing to sell. -/
theorem tickC1_as : simC1b.tick_auto_sell = simC1b := by
  set_option maxHeartbeats 1000000 in
  norm_num [Simulation.tick_auto_sell, Simulation.auto_sell_rate_per_tick,
    stat_bonus_empty, simC1b, compC1]

/-- C1 counterexample: `simC1` satisfies the claim's meltdown precondition
(`max_reactor_heat > 0`, `reactor_heat = 2 × max_reactor_heat`), yet one full
`_do_tick` leaves its depleted component in place — the component list is not
emptied. -/
theorem meltdown_counterexample :
    0 < simC1.max_reactor_heat ∧
    2 * simC1.max_reactor_heat ≤ simC1.reactor_heat ∧
    simC1.do_tick.components ≠ [] := by
  refine ⟨by norm_num [simC1], by norm_num [simC1], ?_⟩
  unfold Simulation.do_tick
  simp only []
  rw [tickC1_head, tickC1_mid]
  dsimp only
  rw [tickC1_ce, tickC1_av, tickC1_as]
  norm_num [simC1b]

/-- A single inert, non-depleted component. -/
def compC1n : ReactorComponent := { stats := {} }

/-- A 1 × 1 × 1 reactor in meltdown range holding only `compC1n`. -/
def simC1m : Simulation :=
  { components := [compC1n], hasGrid := true, gridW := 1, gridH := 1, gridL := 1,
    reactor_heat := 2000, max_reactor_heat := 1000 }

/-- Witness for the amended C1 theorem: in `simC1m` (no depleted component)
the explosion check empties the component list and every cell reads `None`. -/
theorem meltdown_amended_witness :
    (∀ c ∈ simC1m.check_explosions.components, c.depleted = true) ∧
    (simC1m.check_explosions.components = [] ∧
      ∀ x y z : ℤ, compsGet simC1m.gridW simC1m.gridH simC1m.gridL
        simC1m.check_explosions.components x y z = none) := by
  have h := meltdown_amended simC1m rfl (by norm_num [simC1m])
    (by norm_num [simC1m])
  refine ⟨h.1, h.2 ?_⟩
  intro c hc
  have hce : c = compC1n := List.mem_singleton.mp hc
  rw [hce]
  rfl

end RevReactor

